import Mathlib

/-!
# konstellation-io/graphql: the request execution core

A shallow embedding of `runWithJSON` (src/json.go) and `runWithPostFields`
(src/multipart.go), followed by theorems about the request body, the headers of
the outgoing request, the mapping of responses to errors, and the number of
HTTP exchanges.

Both functions are sequential Go code that talks to the standard library.  The
embedding keeps the control flow of the source statement by statement and
represents

* byte buffers and readers by strings (a reader may end in an error),
* Go maps by association lists with unique keys; the order in which a `range`
  loop visits a map is not fixed by Go and is an explicit input,
* the HTTP transport, the reflective JSON encoding of a variable value and the
  reflective JSON decoding into the caller's destination by functions supplied
  in an environment `Env`, together with the other things that the two
  functions do not decide themselves (the random boundary, the failures of the
  multipart writer and of `http.NewRequest`, and the two methods of the Request
  that are not part of the sources at hand),
* a run-time panic by an explicit outcome,
* the calls of `c.httpClient.Do` by the list of requests handed to it.

The encoder and the decoder of `encoding/json` are written out as far as the
two functions use them: `jsonString` and `jsonMap` for the body of the request,
`readValue` and `Decode` for the envelope of the response.  The functions
`runWithJSONWith` and `runWithPostFieldsWith` take the call of the decoder as
an argument, so that what follows the decoding can be stated for whatever the
decoder does; `runWithJSON` and `runWithPostFields` are the two functions with
`Decode` in that place.

The result of a call is a `RunResult`: how the call ended, the requests handed
to the transport, the Request afterwards and the destination afterwards.
Logging (`c.logf`) only formats its arguments and is left out; the context is
handed on to the transport and is part of what `Do` stands for.
-/

set_option autoImplicit false

namespace Graphql

/-! ## Errors -/

/-- A JSON value as `encoding/json` sees it; numbers keep their source text. -/
inductive JSON where
  | null
  | bool (b : Bool)
  | num (raw : String)
  | str (s : String)
  | arr (items : List JSON)
  | obj (members : List (String × JSON))

/-- Modelled from the spec: the entry type of the envelope's `errors` list,
whose declaration is not part of the sources at hand.  The spec describes an
entry as `{message, optional path, optional extensions}`. -/
structure GraphErr where
  Message : String
  Path : Option JSON
  Extensions : Option JSON

/-- Go `error` values that the two functions can return. -/
inductive GoError where
  /-- An error made by `fmt.Errorf`, or one coming out of a library. -/
  | msg (text : String)
  /-- The result of `errors.Wrap(cause, message)`. -/
  | wrap (cause : GoError) (message : String)
  /-- An entry of the envelope's errors list returned as the error. -/
  | graph (e : GraphErr)

/-- The text of an error, `err.Error()`.  The rendering of a `GraphErr` is the
one src/json_test.go checks in `TestDoJSONBadRequestErr`. -/
def GoError.Error : GoError → String
  | .msg text => text
  | .wrap cause message => message ++ ": " ++ cause.Error
  | .graph e => "graphql: " ++ e.Message

/-! ## `http.Header` -/

/-- A Go `map[string][]string`, as an association list with unique keys. -/
abbrev Header := List (String × List String)

/-- The bytes allowed in a header field name (`validHeaderFieldByte`). -/
def validHeaderFieldByte (c : Char) : Bool :=
  c.isAlphanum || "!#$%&*+-.^_|~".data.contains c || c.toNat = 39 || c.toNat = 96

/-- The canonicalising loop: upper case at the start and after each dash, lower
case everywhere else. -/
def canonLoop : Bool → List Char → List Char
  | _, [] => []
  | upper, c :: cs =>
    (if upper then c.toUpper else c.toLower) :: canonLoop (c == '-') cs

/-- The function `textproto.CanonicalMIMEHeaderKey`: a name with a byte that
is not allowed in a field name is returned unchanged. -/
def CanonicalMIMEHeaderKey (s : String) : String :=
  if s.data.all validHeaderFieldByte then String.mk (canonLoop true s.data) else s

/-- The map read `h[k]`, with `none` for a missing key. -/
def Header.lookup (h : Header) (k : String) : Option (List String) :=
  match h with
  | [] => none
  | (k', vs) :: rest => if k' = k then some vs else Header.lookup rest k

/-- The map write `h[k] = vs`. -/
def Header.store (h : Header) (k : String) (vs : List String) : Header :=
  match h with
  | [] => [(k, vs)]
  | (k', vs') :: rest =>
    if k' = k then (k, vs) :: rest else (k', vs') :: Header.store rest k vs

/-- The method `Header.Set`: replaces the values under the canonical key. -/
def Header.Set (h : Header) (key value : String) : Header :=
  h.store (CanonicalMIMEHeaderKey key) [value]

/-- The method `Header.Add`: appends to the values under the canonical key. -/
def Header.Add (h : Header) (key value : String) : Header :=
  h.store (CanonicalMIMEHeaderKey key)
    (((h.lookup (CanonicalMIMEHeaderKey key)).getD []) ++ [value])

/-- The method `Header.Values`: all values under the canonical key. -/
def Header.Values (h : Header) (key : String) : List String :=
  (h.lookup (CanonicalMIMEHeaderKey key)).getD []

/-- The method `Header.Get`: the first value under the canonical key, or the
empty string. -/
def Header.Get (h : Header) (key : String) : String :=
  match h.Values key with
  | [] => ""
  | v :: _ => v

/-! ## Encoding with `encoding/json` -/

/-- One hexadecimal digit, lower case. -/
def hexDigit (n : Nat) : Char :=
  if n < 10 then Char.ofNat (48 + n) else Char.ofNat (87 + n)

/-- The escape `\u00XX` or `\uXXXX` of a code point below 65536. -/
def unicodeEscape (n : Nat) : List Char :=
  ['\\', 'u', hexDigit (n / 4096 % 16), hexDigit (n / 256 % 16),
    hexDigit (n / 16 % 16), hexDigit (n % 16)]

/-- How the encoder writes one character of a string, HTML escaping switched
on as it is for a fresh `json.Encoder`.  Quote, backslash, backspace, form
feed, newline, carriage return and tab have a two-character escape; every other
control character, the three characters `<`, `>`, `&` and the two separators
U+2028 and U+2029 are written as `\uXXXX`.  A Go string may also hold bytes
that are not UTF-8, which a `String` cannot. -/
def escapeChar (c : Char) : List Char :=
  if c = '"' then ['\\', '"']
  else if c = '\\' then ['\\', '\\']
  else if c.toNat = 8 then ['\\', 'b']
  else if c.toNat = 12 then ['\\', 'f']
  else if c = '\n' then ['\\', 'n']
  else if c = '\r' then ['\\', 'r']
  else if c = '\t' then ['\\', 't']
  else if c.toNat < 32 ∨ c = '<' ∨ c = '>' ∨ c = '&' ∨ c.toNat = 8232 ∨ c.toNat = 8233 then
    unicodeEscape c.toNat
  else [c]

/-- The JSON text of a Go string. -/
def jsonString (s : String) : String :=
  String.mk ('"' :: (s.data.flatMap escapeChar ++ ['"']))

/-- The order of byte strings on valid UTF-8, which is the order of the code
points. -/
def lessChars : List Char → List Char → Bool
  | _, [] => false
  | [], _ :: _ => true
  | a :: as, b :: bs => a.toNat < b.toNat || (a.toNat = b.toNat && lessChars as bs)

/-- Inserts an entry into a list of entries sorted by key. -/
def insertByKey {α : Type} (e : String × α) : List (String × α) → List (String × α)
  | [] => [e]
  | x :: xs => if lessChars e.1.data x.1.data then e :: x :: xs else x :: insertByKey e xs

/-- Sorts entries by key, the order in which the encoder writes a map. -/
def sortByKey {α : Type} : List (String × α) → List (String × α)
  | [] => []
  | x :: xs => insertByKey x (sortByKey xs)

/-- The text of a JSON object whose member values are already encoded. -/
def jsonObject (members : List (String × String)) : String :=
  "\x7b" ++ ",".intercalate (members.map fun m => jsonString m.1 ++ ":" ++ m.2) ++ "\x7d"

/-- Encodes the values of the entries in order, stopping at the first failure. -/
def encodeEntries {V : Type} (marshal : V → Except GoError String) :
    List (String × V) → Except GoError (List (String × String))
  | [] => .ok []
  | (k, v) :: rest =>
    match marshal v with
    | .error e => .error e
    | .ok s =>
      match encodeEntries marshal rest with
      | .error e => .error e
      | .ok ss => .ok ((k, s) :: ss)

/-- The JSON text of a `map[string]interface{}`: `null` for a nil map, else
an object with the keys in sorted order. -/
def jsonMap {V : Type} (marshal : V → Except GoError String) :
    Option (List (String × V)) → Except GoError String
  | none => .ok "null"
  | some m =>
    match encodeEntries marshal (sortByKey m) with
    | .error e => .error e
    | .ok ss => .ok (jsonObject ss)

/-! ## Reading a JSON value with `encoding/json`

`json.Decoder.Decode` reads the first JSON value of its input and leaves what
follows it unread.  The functions below follow the states of the scanner of
`encoding/json` and give the errors their texts. -/

/-- The result of reading a part of the input: the value and the rest. -/
abbrev Scan (α : Type) := Except GoError (α × List Char)

/-- The error for an input that ends inside a value (`io.ErrUnexpectedEOF`). -/
def unexpectedEOF : GoError := .msg "unexpected EOF"

/-- The first byte of the UTF-8 form of a character, which is the byte that
the scanner stops at. -/
def leadByte (c : Char) : Nat :=
  if c.toNat < 128 then c.toNat
  else if c.toNat < 2048 then 192 + c.toNat / 64
  else if c.toNat < 65536 then 224 + c.toNat / 4096
  else 240 + c.toNat / 262144

/-- The function `quoteChar` of the scanner: the byte between single quotes,
written as `strconv.Quote` writes it, with the two quotes treated apart. -/
def quoteChar (c : Char) : String :=
  let b := leadByte c
  if b = 39 then "'\\''"
  else if b = 34 then "'\"'"
  else if b = 92 then "'\\\\'"
  else if b = 7 then "'\\a'"
  else if b = 8 then "'\\b'"
  else if b = 12 then "'\\f'"
  else if b = 10 then "'\\n'"
  else if b = 13 then "'\\r'"
  else if b = 9 then "'\\t'"
  else if b = 11 then "'\\v'"
  else if b < 32 ∨ b = 127 then "'\\x" ++ String.mk [hexDigit (b / 16), hexDigit (b % 16)] ++ "'"
  else "'" ++ String.mk [Char.ofNat b] ++ "'"

/-- The syntax error for an offending character (`*json.SyntaxError`). -/
def invalidCharacter (c : Char) (context : String) : GoError :=
  .msg ("invalid character " ++ quoteChar c ++ " " ++ context)

/-- The white space of JSON. -/
def isSpace (c : Char) : Bool :=
  c = ' ' || c = '\t' || c = '\r' || c = '\n'

/-- Drops leading white space. -/
def skipSpace : List Char → List Char
  | [] => []
  | c :: cs => if isSpace c then skipSpace cs else c :: cs

/-- Reads the remaining letters of the literal with the given name (`true`,
`false` or `null`). -/
def scanLiteral (name : String) : List Char → List Char → Except GoError (List Char)
  | [], cs => .ok cs
  | _ :: _, [] => .error unexpectedEOF
  | l :: ls, c :: cs =>
    if c = l then scanLiteral name ls cs
    else .error (invalidCharacter c
      ("in literal " ++ name ++ " (expecting '" ++ String.mk [l] ++ "')"))

/-- Reads one or more digits. -/
def scanDigits (context : String) (cs : List Char) : Scan (List Char) :=
  match cs.span Char.isDigit with
  | ([], []) => .error unexpectedEOF
  | ([], c :: _) => .error (invalidCharacter c context)
  | (ds, rest) => .ok (ds, rest)

/-- Reads the integer part of a number: a single zero, or digits that do not
start with a zero. -/
def scanInt (cs : List Char) : Scan (List Char) :=
  match cs with
  | [] => .error unexpectedEOF
  | c :: rest =>
    if c = '0' then .ok (['0'], rest)
    else scanDigits "in numeric literal" cs

/-- Reads an optional fraction. -/
def scanFrac (cs : List Char) : Scan (List Char) :=
  match cs with
  | c :: rest =>
    if c = '.' then
      match scanDigits "after decimal point in numeric literal" rest with
      | .error e => .error e
      | .ok (ds, rest1) => .ok ('.' :: ds, rest1)
    else .ok ([], cs)
  | [] => .ok ([], cs)

/-- Reads an optional exponent. -/
def scanExp (cs : List Char) : Scan (List Char) :=
  match cs with
  | c :: rest =>
    if c = 'e' ∨ c = 'E' then
      match rest with
      | s :: rest1 =>
        if s = '+' ∨ s = '-' then
          match scanDigits "in exponent of numeric literal" rest1 with
          | .error e => .error e
          | .ok (ds, r) => .ok (c :: s :: ds, r)
        else
          match scanDigits "in exponent of numeric literal" rest with
          | .error e => .error e
          | .ok (ds, r) => .ok (c :: ds, r)
      | [] => .error unexpectedEOF
    else .ok ([], cs)
  | [] => .ok ([], cs)

/-- Reads a number and keeps its text. -/
def scanNumber (cs : List Char) : Scan String :=
  let (sign, afterSign) :=
    match cs with
    | c :: rest => if c = '-' then (['-'], rest) else ([], cs)
    | [] => ([], cs)
  match scanInt afterSign with
  | .error e => .error e
  | .ok (i, r1) =>
    match scanFrac r1 with
    | .error e => .error e
    | .ok (f, r2) =>
      match scanExp r2 with
      | .error e => .error e
      | .ok (x, r3) => .ok (String.mk (sign ++ i ++ f ++ x), r3)

/-- The value of a hexadecimal digit. -/
def hexValue (c : Char) : Option Nat :=
  if c.isDigit then some (c.toNat - 48)
  else if 97 ≤ c.toNat ∧ c.toNat ≤ 102 then some (c.toNat - 87)
  else if 65 ≤ c.toNat ∧ c.toNat ≤ 70 then some (c.toNat - 55)
  else none

/-- The character named by a one-letter escape. -/
def simpleEscape (c : Char) : Option Char :=
  if c = '"' then some '"'
  else if c = '\\' then some '\\'
  else if c = '/' then some '/'
  else if c = 'b' then some (Char.ofNat 8)
  else if c = 'f' then some (Char.ofNat 12)
  else if c = 'n' then some '\n'
  else if c = 'r' then some '\r'
  else if c = 't' then some '\t'
  else none

/-- Where the scanner is inside a string: in plain text, after a backslash,
or after `\u` with some hexadecimal digits read. -/
inductive StringState where
  | plain
  | escape
  | hex (seen value : Nat)

/-- Reads a string after its opening quote.  A character stands for itself,
a `\uXXXX` escape is kept as its number until surrogates are joined. -/
def scanString : StringState → List Char → List (Char ⊕ Nat) → Scan (List (Char ⊕ Nat))
  | _, [], _ => .error unexpectedEOF
  | .plain, c :: rest, acc =>
    if c = '"' then .ok (acc.reverse, rest)
    else if c = '\\' then scanString .escape rest acc
    else if c.toNat < 32 then .error (invalidCharacter c "in string literal")
    else scanString .plain rest (.inl c :: acc)
  | .escape, c :: rest, acc =>
    if c = 'u' then scanString (.hex 0 0) rest acc
    else
      match simpleEscape c with
      | some ch => scanString .plain rest (.inl ch :: acc)
      | none => .error (invalidCharacter c "in string escape code")
  | .hex seen value, c :: rest, acc =>
    match hexValue c with
    | none => .error (invalidCharacter c "in \\u hexadecimal character escape")
    | some x =>
      if seen = 3 then scanString .plain rest (.inr (value * 16 + x) :: acc)
      else scanString (.hex (seen + 1) (value * 16 + x)) rest acc

/-- Turns the units of a string into characters: a high surrogate directly
followed by a low one gives one character, any other surrogate gives U+FFFD. -/
def joinUnits : List (Char ⊕ Nat) → List Char
  | [] => []
  | .inl c :: rest => c :: joinUnits rest
  | .inr hi :: .inr lo :: rest =>
    if 55296 ≤ hi ∧ hi < 56320 ∧ 56320 ≤ lo ∧ lo < 57344 then
      Char.ofNat (65536 + (hi - 55296) * 1024 + (lo - 56320)) :: joinUnits rest
    else if 55296 ≤ hi ∧ hi < 57344 then Char.ofNat 65533 :: joinUnits (.inr lo :: rest)
    else Char.ofNat hi :: joinUnits (.inr lo :: rest)
  | .inr n :: rest =>
    if 55296 ≤ n ∧ n < 57344 then Char.ofNat 65533 :: joinUnits rest
    else Char.ofNat n :: joinUnits rest

/-- Reads a whole string after its opening quote. -/
def scanText (cs : List Char) : Scan String :=
  match scanString .plain cs [] with
  | .error e => .error e
  | .ok (units, rest) => .ok (String.mk (joinUnits units), rest)

/-- The deepest nesting of arrays and objects that the scanner accepts
(`maxNestingDepth`). -/
def maxNestingDepth : Nat := 10000

/-- Reads the elements of an array after the first one has been found to
exist. -/
def scanElements (scanValue : List Char → Scan JSON) :
    Nat → List Char → List JSON → Scan (List JSON)
  | 0, _, _ => .error unexpectedEOF
  | n + 1, cs, acc =>
    match scanValue cs with
    | .error e => .error e
    | .ok (v, rest) =>
      match skipSpace rest with
      | [] => .error unexpectedEOF
      | c :: rest1 =>
        if c = ',' then scanElements scanValue n rest1 (v :: acc)
        else if c = ']' then .ok ((v :: acc).reverse, rest1)
        else .error (invalidCharacter c "after array element")

/-- Reads the members of an object after the first one has been found to
exist. -/
def scanMembers (scanValue : List Char → Scan JSON) :
    Nat → List Char → List (String × JSON) → Scan (List (String × JSON))
  | 0, _, _ => .error unexpectedEOF
  | n + 1, cs, acc =>
    match skipSpace cs with
    | [] => .error unexpectedEOF
    | q :: afterQuote =>
      if q = '"' then
        match scanText afterQuote with
        | .error e => .error e
        | .ok (key, rest) =>
          match skipSpace rest with
          | [] => .error unexpectedEOF
          | colon :: rest1 =>
            if colon = ':' then
              match scanValue rest1 with
              | .error e => .error e
              | .ok (v, rest2) =>
                match skipSpace rest2 with
                | [] => .error unexpectedEOF
                | c :: rest3 =>
                  if c = ',' then scanMembers scanValue n rest3 ((key, v) :: acc)
                  else if c = '\x7d' then .ok (((key, v) :: acc).reverse, rest3)
                  else .error (invalidCharacter c "after object key:value pair")
            else .error (invalidCharacter colon "after object key")
      else .error (invalidCharacter q "looking for beginning of object key string")

/-- Reads one JSON value that stands at the given depth of nesting.  An array
or object that would be nested deeper than `maxNestingDepth` is an error.  The
first argument is fuel for the recursion. -/
def scanValue : Nat → Nat → List Char → Scan JSON
  | 0, _, _ => .error unexpectedEOF
  | n + 1, depth, cs =>
    match skipSpace cs with
    | [] => .error unexpectedEOF
    | c :: rest =>
      if c = '\x7b' then
        if maxNestingDepth < depth + 1 then .error (invalidCharacter c "exceeded max depth")
        else
          match skipSpace rest with
          | [] => .error unexpectedEOF
          | c1 :: rest1 =>
            if c1 = '\x7d' then .ok (.obj [], rest1)
            else
              match scanMembers (scanValue n (depth + 1)) n (c1 :: rest1) [] with
              | .error e => .error e
              | .ok (ms, r) => .ok (.obj ms, r)
      else if c = '[' then
        if maxNestingDepth < depth + 1 then .error (invalidCharacter c "exceeded max depth")
        else
          match skipSpace rest with
          | [] => .error unexpectedEOF
          | c1 :: rest1 =>
            if c1 = ']' then .ok (.arr [], rest1)
            else
              match scanElements (scanValue n (depth + 1)) n (c1 :: rest1) [] with
              | .error e => .error e
              | .ok (xs, r) => .ok (.arr xs, r)
      else if c = '"' then
        match scanText rest with
        | .error e => .error e
        | .ok (s, r) => .ok (.str s, r)
      else if c = 't' then
        match scanLiteral "true" ['r', 'u', 'e'] rest with
        | .error e => .error e
        | .ok r => .ok (.bool true, r)
      else if c = 'f' then
        match scanLiteral "false" ['a', 'l', 's', 'e'] rest with
        | .error e => .error e
        | .ok r => .ok (.bool false, r)
      else if c = 'n' then
        match scanLiteral "null" ['u', 'l', 'l'] rest with
        | .error e => .error e
        | .ok r => .ok (.null, r)
      else if c = '-' ∨ c.isDigit then
        match scanNumber (c :: rest) with
        | .error e => .error e
        | .ok (raw, r) => .ok (.num raw, r)
      else .error (invalidCharacter c "looking for beginning of value")

/-- The first JSON value of a body; an empty or blank body gives `io.EOF`.
The fuel is above the number of characters of the body, which bounds both the
nesting and the number of elements that can follow. -/
def readValue (body : String) : Except GoError JSON :=
  match skipSpace body.data with
  | [] => .error (.msg "EOF")
  | cs =>
    match scanValue (2 * body.data.length + 2) 0 cs with
    | .error e => .error e
    | .ok (v, _) => .ok v

/-! ## The data model -/

/-- A byte source (`io.Reader`): the bytes it yields and then either the end
of the stream (`none`) or a read error. -/
structure Reader where
  data : String
  err : Option GoError

/-- Modelled from the spec: a file attached to a Request.  The declaration is
not part of the sources at hand; src/multipart.go reads `Name` and `R`, and the
spec names the bound variable `field`. -/
structure File where
  Field : String
  Name : String
  R : Reader

/-- Modelled from the spec: the Request, whose declaration is not part of the
sources at hand.  The two functions read `q`, `vars`, `files` and `Header`;
`V` is the type of a variable value (`interface{}`).  A Go map may be nil:
`vars` and `Header` are nil in `&Request{q: "query {}"}` of src/json_test.go. -/
structure Request (V : Type) where
  q : String
  vars : Option (List (String × V))
  files : List File
  Header : Option Header

/-- Modelled from the spec: the fields of the Client that the two functions
read.  The transport `httpClient` is part of the environment. -/
structure Client where
  endpoint : String
  closeReq : Bool

/-- One part of a multipart body: a form file has a file name, a form field
has none. -/
structure Part where
  name : String
  filename : Option String
  content : String
  deriving DecidableEq

/-- The content of the buffer that becomes the body of the outgoing request:
the text written by the JSON encoder, or the parts written through a
`multipart.Writer` with the given boundary and then closed. -/
inductive Body where
  | raw (text : String)
  | multipart (boundary : String) (parts : List Part)
  deriving DecidableEq

/-- The outgoing `*http.Request` as `http.NewRequest` and the following lines
leave it. -/
structure HttpRequest where
  Method : String
  URL : String
  Body : Body
  Header : Header
  Close : Bool
  deriving DecidableEq

/-- The `*http.Response` as far as the two functions read it. -/
structure HttpResponse where
  StatusCode : Int
  Body : Reader

/-- Modelled from the spec: the envelope `graphResponse`, whose declaration is
not part of the sources at hand.  `Data` holds the caller's destination. -/
structure graphResponse (D : Type) where
  Data : D
  Errors : List GraphErr

/-- What lies outside the two functions.  `V` is the type of variable values
and `D` the type of the caller's destination. -/
structure Env (V D : Type) where
  /-- The result of `encoding/json` on one variable value. -/
  marshal : V → Except GoError String
  /-- The method `req.OperationsJSON()`, not part of the sources at hand. -/
  OperationsJSON : Request V → Except GoError String
  /-- The method `req.FileMap()`, not part of the sources at hand. -/
  FileMap : Request V → String
  /-- The random boundary chosen by `multipart.NewWriter`. -/
  boundary : String
  /-- The error, if any, of `writer.CreateFormFile` for the file at an index. -/
  createFormFileErr : Nat → Option GoError
  /-- The error, if any, of `writer.Close()`. -/
  closeErr : Option GoError
  /-- The order in which `range params` visits the two entries of the map:
  `map` first, or `operations` first. -/
  paramsMapFirst : Bool
  /-- The order in which `range req.Header` visits the entries. -/
  rangeHeader : Header → List (String × List String)
  /-- The error, if any, of `http.NewRequest` for an endpoint. -/
  newRequestErr : String → Option GoError
  /-- The exchange `c.httpClient.Do(r)`. -/
  Do : HttpRequest → Except GoError HttpResponse
  /-- The result of `encoding/json` storing the value of the member `data`
  into the destination: the destination afterwards and the error, if any. -/
  unmarshal : JSON → D → D × Option GoError
  /-- The result of `encoding/json` storing the value of the member `errors`
  into the errors list of the envelope, whose entry type is not declared in
  the sources at hand: the list afterwards and the error, if any. -/
  unmarshalErrors : JSON → List GraphErr → List GraphErr × Option GoError

/-- How a call ends. -/
inductive Outcome where
  /-- The function returned this `error` (`none` is `nil`). -/
  | returned (err : Option GoError)
  /-- The function did not return: a run-time panic. -/
  | panicked (reason : String)

/-- Everything observable about one call. -/
structure RunResult (V D : Type) where
  outcome : Outcome
  /-- The requests handed to `c.httpClient.Do`, in order. -/
  sent : List HttpRequest
  /-- The Request after the call. -/
  req : Request V
  /-- The caller's destination after the call. -/
  dest : D

/-! ## Decoding the envelope -/

/-- The error of storing a JSON value of the given kind into the envelope
(`*json.UnmarshalTypeError`), whose type is `graphResponse` of the package
`graphql`. -/
def unmarshalTypeError (kind : String) : GoError :=
  .msg ("json: cannot unmarshal " ++ kind ++ " into Go value of type graphql.graphResponse")

/-- How the decoder folds one character of a name: letters without regard to
case, with the long s (U+017F) counted as `s` and the Kelvin sign (U+212A) as
`k`. -/
def foldChar (c : Char) : Char :=
  if c.toNat = 383 then 'S'
  else if c.toNat = 8490 then 'K'
  else c.toUpper

/-- The decoder matches a member name with a field name when the two are the
same after folding. -/
def equalFold (a b : String) : Bool :=
  a.data.map foldChar = b.data.map foldChar

/-- The decoder keeps the first error it meets and goes on. -/
def saveError (saved new : Option GoError) : Option GoError :=
  match saved with
  | some e => some e
  | none => new

/-- Stores one member of the top-level JSON object into the envelope: the
value of `data` goes into the destination that `Data` holds, the value of
`errors` into the errors list; a member with another name is skipped. -/
def storeMember {V D : Type} (E : Env V D)
    (acc : graphResponse D × Option GoError) (m : String × JSON) :
    graphResponse D × Option GoError :=
  if equalFold m.1 "data" then
    let stored := E.unmarshal m.2 acc.1.Data
    ({ acc.1 with Data := stored.1 }, saveError acc.2 stored.2)
  else if equalFold m.1 "errors" then
    let stored := E.unmarshalErrors m.2 acc.1.Errors
    ({ acc.1 with Errors := stored.1 }, saveError acc.2 stored.2)
  else acc

/-- The state after `json.NewDecoder(&buf).Decode(&gr)`: the error, and the
pointer `gr`, which the decoder may have set to nil (`none`). -/
structure Decoded (D : Type) where
  err : Option GoError
  gr : Option (graphResponse D)

/-- The call `json.NewDecoder(&buf).Decode(&gr)` with `gr` a pointer to an
envelope.  The argument is the address of that pointer, so the decoder treats
the literal `null` by setting the pointer `gr` itself to nil and reports no
error; an object is stored member by member into the envelope; any other value
is a type error. -/
def Decode {V D : Type} (E : Env V D) (body : String) (gr : graphResponse D) : Decoded D :=
  match readValue body with
  | .error e => ⟨some e, some gr⟩
  | .ok .null => ⟨none, none⟩
  | .ok (.obj members) =>
    let stored := members.foldl (storeMember E) (gr, none)
    ⟨stored.2, some stored.1⟩
  | .ok (.arr _) => ⟨some (unmarshalTypeError "array"), some gr⟩
  | .ok (.str _) => ⟨some (unmarshalTypeError "string"), some gr⟩
  | .ok (.num _) => ⟨some (unmarshalTypeError "number"), some gr⟩
  | .ok (.bool _) => ⟨some (unmarshalTypeError "bool"), some gr⟩

/-! ## The two functions -/

/-- The body of the JSON request, src/json.go lines 15 to 27: the encoding of
the struct with the fields `query` and `variables`, followed by the newline
that `Encode` appends. -/
def encodeRequestBody {V D : Type} (E : Env V D) (req : Request V) : Except GoError String :=
  match jsonMap E.marshal req.vars with
  | .error e => .error e
  | .ok variablesText =>
    .ok (jsonObject [("query", jsonString req.q), ("variables", variablesText)] ++ "\n")

/-- The inner loop `for _, value := range values { r.Header.Add(key, value) }`. -/
def addValues (h : Header) (key : String) : List String → Header
  | [] => h
  | value :: rest => addValues (h.Add key value) key rest

/-- The outer loop `for key, values := range req.Header` over the entries in
the order of the visit. -/
def addEntries (h : Header) : List (String × List String) → Header
  | [] => h
  | (key, values) :: rest => addEntries (addValues h key values) rest

/-- The entries that `range req.Header` visits: none for a nil map. -/
def rangeOf {V D : Type} (E : Env V D) (h : Option Header) : List (String × List String) :=
  match h with
  | none => []
  | some m => E.rangeHeader m

/-- The default value of `Content-Type` and `Accept` on the JSON path. -/
def jsonContentType : String := "application/json; charset=utf-8"

/-- The function `runWithJSON` of src/json.go, statement by statement.  The
first argument stands for the call `json.NewDecoder(&buf).Decode(&gr)`: given
the body and the envelope that `gr` points to, it says what the decoder leaves
behind. -/
def runWithJSONWith {V D : Type} (decode : String → graphResponse D → Decoded D)
    (E : Env V D) (c : Client) (req : Request V) (resp : D) : RunResult V D :=
  -- lines 15 to 27: the body
  match encodeRequestBody E req with
  | .error err => ⟨.returned (some (.wrap err "encode body")), [], req, resp⟩
  | .ok requestBody =>
    -- lines 32 to 34: the envelope around the destination
    let gr : graphResponse D := { Data := resp, Errors := [] }
    -- lines 36 to 40: the request
    match E.newRequestErr c.endpoint with
    | some err => ⟨.returned (some err), [], req, resp⟩
    | none =>
      let r : HttpRequest :=
        { Method := "POST", URL := c.endpoint, Body := .raw requestBody, Header := [],
          Close := false }
      -- lines 42 to 50: the headers
      let r := { r with Close := c.closeReq }
      let r := { r with Header := r.Header.Set "Content-Type" jsonContentType }
      let r := { r with Header := r.Header.Set "Accept" jsonContentType }
      let r := { r with Header := addEntries r.Header (rangeOf E req.Header) }
      -- lines 54 to 58: the exchange
      match E.Do r with
      | .error err => ⟨.returned (some err), [r], req, resp⟩
      | .ok res =>
        -- lines 62 to 66: the body of the response
        match res.Body.err with
        | some err => ⟨.returned (some (.wrap err "reading body")), [r], req, resp⟩
        | none =>
          -- lines 70 to 76: decoding
          let decoded := decode res.Body.data gr
          let dest := match decoded.gr with
            | some g => g.Data
            | none => resp
          match decoded.err with
          | some err =>
            if res.StatusCode ≠ 200 then
              ⟨.returned (some (.msg ("graphql: server returned a non-200 status code: "
                ++ toString res.StatusCode))), [r], req, dest⟩
            else ⟨.returned (some (.wrap err "decoding response")), [r], req, dest⟩
          | none =>
            -- lines 78 to 83: the read of `gr.Errors`
            match decoded.gr with
            | none =>
              ⟨.panicked "invalid memory address or nil pointer dereference", [r], req, dest⟩
            | some g =>
              match g.Errors with
              | first :: _ => ⟨.returned (some (.graph first)), [r], req, dest⟩
              | [] => ⟨.returned none, [r], req, dest⟩

/-- The loop over `req.files`, src/multipart.go lines 29 to 40: the file at
index `i` becomes the form file named by the decimal text of `i + 1`. -/
def writeFiles {V D : Type} (E : Env V D) :
    Nat → List File → List Part → Except GoError (List Part)
  | _, [], parts => .ok parts
  | i, file :: rest, parts =>
    let key := toString (i + 1)
    match E.createFormFileErr i with
    | some err => .error (.wrap err "creating form")
    | none =>
      match file.R.err with
      | some err => .error (.wrap err "preparing file")
      | none => writeFiles E (i + 1) rest (parts ++ [⟨key, some file.Name, file.R.data⟩])

/-- The loop `for key, val := range params`, src/multipart.go lines 42 to 44,
which writes one form field for each of the two entries in the order of the
visit.  The result of `WriteField` is discarded by the source. -/
def writeParams {V D : Type} (E : Env V D) (operations fileMap : String) : List Part :=
  if E.paramsMapFirst then
    [⟨"map", none, fileMap⟩, ⟨"operations", none, operations⟩]
  else
    [⟨"operations", none, operations⟩, ⟨"map", none, fileMap⟩]

/-- The method `writer.FormDataContentType()`: the boundary is quoted if it
has one of the special characters, which the random boundary has not. -/
def FormDataContentType (boundary : String) : String :=
  if boundary.data.any (fun c => "()<>@,;:\\\"/[]?= ".data.contains c) then
    "multipart/form-data; boundary=\"" ++ boundary ++ "\""
  else "multipart/form-data; boundary=" ++ boundary

/-- The function `runWithPostFields` of src/multipart.go, statement by
statement, with the decoder as the first argument as in `runWithJSONWith`. -/
def runWithPostFieldsWith {V D : Type} (decode : String → graphResponse D → Decoded D)
    (E : Env V D) (c : Client) (req : Request V) (resp : D) : RunResult V D :=
  -- lines 16 to 19: the operations
  match E.OperationsJSON req with
  | .error err => ⟨.returned (some err), [], req, resp⟩
  | .ok operations =>
    -- lines 21 to 24 and 26 to 40: the map `params` and the files
    match writeFiles E 0 req.files [] with
    | .error err => ⟨.returned (some err), [], req, resp⟩
    | .ok fileParts =>
      -- lines 42 to 44: the two fields
      let parts := fileParts ++ writeParams E operations (E.FileMap req)
      -- lines 46 to 49: closing the writer
      match E.closeErr with
      | some err => ⟨.returned (some (.wrap err "writing fields")), [], req, resp⟩
      | none =>
        -- line 51: the write into the headers of the Request
        match req.Header with
        | none => ⟨.panicked "assignment to entry in nil map", [], req, resp⟩
        | some header =>
          let req1 : Request V :=
            { req with
              Header := some (header.Set "Content-Type" (FormDataContentType E.boundary)) }
          -- lines 57 to 59: the envelope around the destination
          let gr : graphResponse D := { Data := resp, Errors := [] }
          -- lines 61 to 64: the request
          match E.newRequestErr c.endpoint with
          | some err => ⟨.returned (some err), [], req1, resp⟩
          | none =>
            let r : HttpRequest :=
              { Method := "POST", URL := c.endpoint, Body := .multipart E.boundary parts,
                Header := [], Close := false }
            -- lines 66 to 74: the headers
            let r := { r with Close := c.closeReq }
            let r := { r with
              Header := r.Header.Set "Content-Type" (FormDataContentType E.boundary) }
            let r := { r with Header := r.Header.Set "Accept" jsonContentType }
            let r := { r with Header := addEntries r.Header (rangeOf E req1.Header) }
            -- lines 80 to 83: the exchange
            match E.Do r with
            | .error err => ⟨.returned (some err), [r], req1, resp⟩
            | .ok res =>
              -- lines 87 to 91: the body of the response
              match res.Body.err with
              | some err => ⟨.returned (some (.wrap err "reading body")), [r], req1, resp⟩
              | none =>
                -- lines 95 to 101: decoding
                let decoded := decode res.Body.data gr
                let dest := match decoded.gr with
                  | some g => g.Data
                  | none => resp
                match decoded.err with
                | some err =>
                  if res.StatusCode ≠ 200 then
                    ⟨.returned (some (.msg ("graphql: server returned a non-200 status code: "
                      ++ toString res.StatusCode))), [r], req1, dest⟩
                  else ⟨.returned (some (.wrap err "decoding response")), [r], req1, dest⟩
                | none =>
                  -- lines 103 to 108: the read of `gr.Errors`
                  match decoded.gr with
                  | none =>
                    ⟨.panicked "invalid memory address or nil pointer dereference", [r], req1,
                      dest⟩
                  | some g =>
                    match g.Errors with
                    | first :: _ => ⟨.returned (some (.graph first)), [r], req1, dest⟩
                    | [] => ⟨.returned none, [r], req1, dest⟩

/-- The function `runWithJSON` with the decoder of `encoding/json`. -/
def runWithJSON {V D : Type} (E : Env V D) (c : Client) (req : Request V) (resp : D) :
    RunResult V D :=
  runWithJSONWith (Decode E) E c req resp

/-- The function `runWithPostFields` with the decoder of `encoding/json`. -/
def runWithPostFields {V D : Type} (E : Env V D) (c : Client) (req : Request V) (resp : D) :
    RunResult V D :=
  runWithPostFieldsWith (Decode E) E c req resp

/-! ### The same two functions in three steps

For the proofs each function is cut into the lines before the exchange, the
exchange, and the lines after it, which are the same in both functions. -/

/-- The outcome of the lines before the exchange: the request to send, or the
way the function ended instead, together with the Request as those lines leave
it. -/
structure Built (V : Type) where
  result : Except Outcome HttpRequest
  req : Request V

/-- Lines 15 to 53 of src/json.go: the outgoing request of `runWithJSON`. -/
def buildJSON {V D : Type} (E : Env V D) (c : Client) (req : Request V) : Built V :=
  match encodeRequestBody E req with
  | .error err => ⟨.error (.returned (some (.wrap err "encode body"))), req⟩
  | .ok requestBody =>
    match E.newRequestErr c.endpoint with
    | some err => ⟨.error (.returned (some err)), req⟩
    | none =>
      let r : HttpRequest :=
        { Method := "POST", URL := c.endpoint, Body := .raw requestBody, Header := [],
          Close := false }
      let r := { r with Close := c.closeReq }
      let r := { r with Header := r.Header.Set "Content-Type" jsonContentType }
      let r := { r with Header := r.Header.Set "Accept" jsonContentType }
      let r := { r with Header := addEntries r.Header (rangeOf E req.Header) }
      ⟨.ok r, req⟩

/-- Lines 60 to 83 of src/json.go, which are lines 85 to 108 of
src/multipart.go: reading and decoding the response.  The result is the way
the function ends and the destination afterwards. -/
def readResponse {D : Type} (decode : String → graphResponse D → Decoded D)
    (res : HttpResponse) (resp : D) : Outcome × D :=
  let gr : graphResponse D := { Data := resp, Errors := [] }
  match res.Body.err with
  | some err => (.returned (some (.wrap err "reading body")), resp)
  | none =>
    let decoded := decode res.Body.data gr
    let dest := match decoded.gr with
      | some g => g.Data
      | none => resp
    match decoded.err with
    | some err =>
      if res.StatusCode ≠ 200 then
        (.returned (some (.msg ("graphql: server returned a non-200 status code: "
          ++ toString res.StatusCode))), dest)
      else (.returned (some (.wrap err "decoding response")), dest)
    | none =>
      match decoded.gr with
      | none => (.panicked "invalid memory address or nil pointer dereference", dest)
      | some g =>
        match g.Errors with
        | first :: _ => (.returned (some (.graph first)), dest)
        | [] => (.returned none, dest)

/-- The exchange and what follows it, for the outcome of the lines before
it. -/
def exchange {V D : Type} (decode : String → graphResponse D → Decoded D) (E : Env V D)
    (built : Built V) (resp : D) : RunResult V D :=
  match built.result with
  | .error outcome => ⟨outcome, [], built.req, resp⟩
  | .ok r =>
    match E.Do r with
    | .error err => ⟨.returned (some err), [r], built.req, resp⟩
    | .ok res =>
      let ended := readResponse decode res resp
      ⟨ended.1, [r], built.req, ended.2⟩

/-- Lines 16 to 78 of src/multipart.go: the outgoing request of
`runWithPostFields`. -/
def buildPostFields {V D : Type} (E : Env V D) (c : Client) (req : Request V) : Built V :=
  match E.OperationsJSON req with
  | .error err => ⟨.error (.returned (some err)), req⟩
  | .ok operations =>
    match writeFiles E 0 req.files [] with
    | .error err => ⟨.error (.returned (some err)), req⟩
    | .ok fileParts =>
      let parts := fileParts ++ writeParams E operations (E.FileMap req)
      match E.closeErr with
      | some err => ⟨.error (.returned (some (.wrap err "writing fields"))), req⟩
      | none =>
        match req.Header with
        | none => ⟨.error (.panicked "assignment to entry in nil map"), req⟩
        | some header =>
          let req1 : Request V :=
            { req with
              Header := some (header.Set "Content-Type" (FormDataContentType E.boundary)) }
          match E.newRequestErr c.endpoint with
          | some err => ⟨.error (.returned (some err)), req1⟩
          | none =>
            let r : HttpRequest :=
              { Method := "POST", URL := c.endpoint, Body := .multipart E.boundary parts,
                Header := [], Close := false }
            let r := { r with Close := c.closeReq }
            let r := { r with
              Header := r.Header.Set "Content-Type" (FormDataContentType E.boundary) }
            let r := { r with Header := r.Header.Set "Accept" jsonContentType }
            let r := { r with Header := addEntries r.Header (rangeOf E req1.Header) }
            ⟨.ok r, req1⟩

/-! ## Examples -/

/-- An entry type for the examples: the member `message` must be a string,
`path` and `extensions` are kept as they come. -/
def storeErrMember (acc : GraphErr × Option GoError) (m : String × JSON) :
    GraphErr × Option GoError :=
  if equalFold m.1 "message" then
    match m.2 with
    | .str s => ({ acc.1 with Message := s }, acc.2)
    | .null => acc
    | _ => (acc.1, saveError acc.2 (some (.msg "json: cannot unmarshal into Go value of type string")))
  else if equalFold m.1 "path" then
    match m.2 with
    | .null => ({ acc.1 with Path := none }, acc.2)
    | v => ({ acc.1 with Path := some v }, acc.2)
  else if equalFold m.1 "extensions" then
    match m.2 with
    | .null => ({ acc.1 with Extensions := none }, acc.2)
    | v => ({ acc.1 with Extensions := some v }, acc.2)
  else acc

/-- Decodes one element of the errors array into the entry that is already
there. -/
def decodeGraphErr (entry : GraphErr) (j : JSON) : GraphErr × Option GoError :=
  match j with
  | .null => (entry, none)
  | .obj members => members.foldl storeErrMember (entry, none)
  | _ => (entry, some (.msg "json: cannot unmarshal into Go value of type graphql.GraphErr"))

/-- Decodes the elements of the errors array in order, each into the entry
that the list already holds at its place, or into a fresh entry. -/
def decodeGraphErrs : List GraphErr → List JSON → List GraphErr × Option GoError
  | _, [] => ([], none)
  | old, j :: rest =>
    let first := decodeGraphErr (old.head?.getD ⟨"", none, none⟩) j
    let others := decodeGraphErrs old.tail rest
    (first.1 :: others.1, saveError first.2 others.2)

/-- The store of the member `errors` for the examples: `null` gives the nil
list, an array is decoded element by element, anything else is an error. -/
def exampleErrors (j : JSON) (old : List GraphErr) : List GraphErr × Option GoError :=
  match j with
  | .null => ([], none)
  | .arr items => decodeGraphErrs old items
  | _ => (old, some (.msg "json: cannot unmarshal into Go value of type []graphql.GraphErr"))

/-- An environment for the examples: variable values are strings, the
destination is an untyped container that takes a decoded value as it is and is
left alone by `null`, the server answers every request with the given status
and body, and nothing fails on the way out. -/
def exampleEnv (mapFirst : Bool) (status : Int) (body : String) : Env String JSON where
  marshal := fun s => .ok (jsonString s)
  OperationsJSON := fun _ =>
    .ok "\x7b\"query\":\"mutation ($file: Upload!) \x7b upload(file: $file) \x7d\",\"variables\":\x7b\"file\":null\x7d\x7d"
  FileMap := fun _ => "\x7b\"1\":[\"variables.file\"]\x7d"
  boundary := "4e5d3a1c0b"
  createFormFileErr := fun _ => none
  closeErr := none
  paramsMapFirst := mapFirst
  rangeHeader := fun h => h
  newRequestErr := fun _ => none
  Do := fun _ => .ok ⟨status, ⟨body, none⟩⟩
  unmarshal := fun j d =>
    match j with
    | .null => (d, none)
    | v => (v, none)
  unmarshalErrors := exampleErrors

/-- The client of the examples. -/
def exampleClient : Client := ⟨"http://127.0.0.1:8080/graphql", false⟩

/-- The Request of `TestDoJSON`: `&Request{q: "query {}"}`. -/
def plainRequest : Request String := ⟨"query \x7b\x7d", none, [], none⟩

/-- The Request of `TestQueryJSON`, with the header of `TestHeader`. -/
def queryRequest : Request String :=
  ⟨"query \x7b\x7d", some [("username", "matryer")], [], some [("X-Custom-Header", ["123"])]⟩

/-- A Request with two files and a caller-supplied `Content-Type`. -/
def uploadRequest : Request String :=
  ⟨"mutation ($file: Upload!) \x7b upload(file: $file) \x7d", none,
    [⟨"file", "a.txt", ⟨"hello", none⟩⟩, ⟨"file", "b.txt", ⟨"world", none⟩⟩],
    some [("Content-Type", ["text/plain"])]⟩

/-- A Request with a file whose content cannot be read to the end. -/
def brokenRequest : Request String :=
  ⟨"mutation ($file: Upload!) \x7b upload(file: $file) \x7d", none,
    [⟨"file", "a.txt", ⟨"hel", some (.msg "unexpected EOF")⟩⟩], some []⟩

/-- A Request without files and with a caller-supplied `Content-Type`. -/
def textRequest : Request String :=
  ⟨"query \x7b\x7d", none, [], some [("Content-Type", ["text/plain"])]⟩

/-- A text with every kind of character that the encoder treats apart: quote,
backslash, the control characters with a short escape, other control
characters, the three characters escaped for HTML, the two separators, and then
characters that are copied as they are (delete, slash, space, a letter, and
three characters outside ASCII). -/
def trickyText : String :=
  String.mk [Char.ofNat 34, Char.ofNat 92, Char.ofNat 8, Char.ofNat 12, Char.ofNat 10, Char.ofNat 13, Char.ofNat 9, Char.ofNat 0, Char.ofNat 1, Char.ofNat 4, Char.ofNat 5, Char.ofNat 7, Char.ofNat 11, Char.ofNat 26, Char.ofNat 29, Char.ofNat 31, Char.ofNat 60, Char.ofNat 62, Char.ofNat 38, Char.ofNat 8232, Char.ofNat 8233, Char.ofNat 127, Char.ofNat 47, Char.ofNat 32, Char.ofNat 97, Char.ofNat 233, Char.ofNat 8364, Char.ofNat 128512]

/-- A Request whose document and variables need escaping and whose variable
names are not in sorted order. -/
def trickyRequest : Request String :=
  ⟨"query \x7b user(name: \"a\\b\") \x7d" ++ trickyText,
    some [("b", "2"), ("a\"", "<"), ("a", trickyText), ("ab", ""), ("é", "x"), ("B", "y")],
    [], none⟩

/-- The body that the encoder of `encoding/json` writes for `trickyRequest`. -/
def trickyBody : String :=
  "\x7b\"query\":\"query \x7b user(name: \\\"a\\\\b\\\") \x7d\\\"\\\\\\b\\f\\n\\r\\t\\u0000\\u0001\\u0004\\u0005\\u0007\\u000b\\u001a\\u001d\\u001f\\u003c\\u003e\\u0026\\u2028\\u2029\x7f/ aé€😀\",\"variables\":\x7b\"B\":\"y\",\"a\":\"\\\"\\\\\\b\\f\\n\\r\\t\\u0000\\u0001\\u0004\\u0005\\u0007\\u000b\\u001a\\u001d\\u001f\\u003c\\u003e\\u0026\\u2028\\u2029\x7f/ aé€😀\",\"a\\\"\":\"\\u003c\",\"ab\":\"\",\"b\":\"2\",\"é\":\"x\"\x7d\x7d\n"

/-- A Request with an empty document and an empty, but not nil, variables
map. -/
def emptyRequest : Request String := ⟨"", some [], [], none⟩

/-- A Request without files whose caller supplies for `Accept` the value that
the transport sets itself. -/
def acceptRequest : Request String :=
  ⟨"query \x7b\x7d", none, [], some [("Accept", ["application/json; charset=utf-8"])]⟩

/-- The request that `runWithJSON` sends for `acceptRequest`. -/
def acceptOutgoing : HttpRequest :=
  { Method := "POST"
    URL := "http://127.0.0.1:8080/graphql"
    Body := .raw "\x7b\"query\":\"query \x7b\x7d\",\"variables\":null\x7d\n"
    Header := [("Content-Type", ["application/json; charset=utf-8"]),
      ("Accept", ["application/json; charset=utf-8", "application/json; charset=utf-8"])]
    Close := false }

/-- A Request with one file and a header that has three values, one of them
twice. -/
def tracedRequest : Request String :=
  ⟨"mutation ($file: Upload!) \x7b upload(file: $file) \x7d", none,
    [⟨"file", "a.txt", ⟨"hello", none⟩⟩], some [("X-Trace", ["a", "b", "a"])]⟩

/-- The request that `runWithPostFields` sends for `tracedRequest` when the
loop over `params` visits `operations` first and the loop over the headers
visits `X-Trace` first. -/
def tracedOutgoing : HttpRequest :=
  { Method := "POST"
    URL := "http://127.0.0.1:8080/graphql"
    Body := .multipart "4e5d3a1c0b"
      [⟨"1", some "a.txt", "hello"⟩,
        ⟨"operations", none,
          "\x7b\"query\":\"mutation ($file: Upload!) \x7b upload(file: $file) \x7d\",\"variables\":\x7b\"file\":null\x7d\x7d"⟩,
        ⟨"map", none, "\x7b\"1\":[\"variables.file\"]\x7d"⟩]
    Header := [("Content-Type", ["multipart/form-data; boundary=4e5d3a1c0b",
        "multipart/form-data; boundary=4e5d3a1c0b"]),
      ("Accept", ["application/json; charset=utf-8"]), ("X-Trace", ["a", "b", "a"])]
    Close := false }

/-- The request that `runWithJSON` sends for `plainRequest`. -/
def plainOutgoing : HttpRequest :=
  { Method := "POST"
    URL := "http://127.0.0.1:8080/graphql"
    Body := .raw "\x7b\"query\":\"query \x7b\x7d\",\"variables\":null\x7d\n"
    Header := [("Content-Type", ["application/json; charset=utf-8"]),
      ("Accept", ["application/json; charset=utf-8"])]
    Close := false }

/-- The request that `runWithJSON` sends for `queryRequest`. -/
def queryOutgoing : HttpRequest :=
  { Method := "POST"
    URL := "http://127.0.0.1:8080/graphql"
    Body := .raw "\x7b\"query\":\"query \x7b\x7d\",\"variables\":\x7b\"username\":\"matryer\"\x7d\x7d\n"
    Header := [("Content-Type", ["application/json; charset=utf-8"]),
      ("Accept", ["application/json; charset=utf-8"]), ("X-Custom-Header", ["123"])]
    Close := false }

/-- The request that `runWithJSON` sends for `textRequest`. -/
def textOutgoing : HttpRequest :=
  { Method := "POST"
    URL := "http://127.0.0.1:8080/graphql"
    Body := .raw "\x7b\"query\":\"query \x7b\x7d\",\"variables\":null\x7d\n"
    Header := [("Content-Type", ["application/json; charset=utf-8", "text/plain"]),
      ("Accept", ["application/json; charset=utf-8"])]
    Close := false }

/-- The request that `runWithPostFields` sends for `uploadRequest` when the
loop over `params` visits `operations` first. -/
def uploadOutgoing : HttpRequest :=
  { Method := "POST"
    URL := "http://127.0.0.1:8080/graphql"
    Body := .multipart "4e5d3a1c0b"
      [⟨"1", some "a.txt", "hello"⟩, ⟨"2", some "b.txt", "world"⟩,
        ⟨"operations", none,
          "\x7b\"query\":\"mutation ($file: Upload!) \x7b upload(file: $file) \x7d\",\"variables\":\x7b\"file\":null\x7d\x7d"⟩,
        ⟨"map", none, "\x7b\"1\":[\"variables.file\"]\x7d"⟩]
    Header := [("Content-Type", ["multipart/form-data; boundary=4e5d3a1c0b",
        "multipart/form-data; boundary=4e5d3a1c0b"]),
      ("Accept", ["application/json; charset=utf-8"])]
    Close := false }

/-- The body of a successful response, as in the spec's example. -/
def dataBody : String := "\x7b\"data\":\x7b\"v\":\"x\"\x7d\x7d"

/-- The body of a response that carries one GraphQL error. -/
def errorsBody : String := "\x7b\"errors\":[\x7b\"message\":\"bad\"\x7d]\x7d"

/-- The body that the server of `TestDoJSON` writes. -/
def testDataBody : String :=
  "\x7b\n\t\t\t\"data\": \x7b\n\t\t\t\t\"something\": \"yes\"\n\t\t\t\x7d\n\t\t\x7d"

/-- The body that the server of `TestDoJSONBadRequestErr` writes. -/
def testErrorsBody : String :=
  "\x7b\n\t\t\t\"errors\": [\x7b\n\t\t\t\t\"message\": \"miscellaneous message as to why the the request was bad\"\n\t\t\t\x7d]\n\t\t\x7d"

/-- The body of `TestDoJSONServerError`, which is not JSON. -/
def serverErrorBody : String := "Internal Server Error"

/-- A body whose member `errors` comes twice: the second array is decoded into
the list that the first one left. -/
def repeatedErrorsBody : String :=
  "\x7b\"errors\":[\x7b\"message\":\"a\"\x7d],\"errors\":[\x7b\x7d]\x7d"

/-- A body whose member name is `errors` spelt with the long s (U+017F). -/
def foldedErrorsBody : String :=
  String.mk ("\x7b\"error".data ++ [Char.ofNat 383] ++ "\":[\x7b\"message\":\"bad\"\x7d]\x7d".data)

/-- A body with the member `data` and an errors list that is there and
empty. -/
def emptyErrorsBody : String :=
  "\x7b\"data\":\x7b\"v\":\"x\"\x7d,\"errors\":[]\x7d"

/-- A body of 10001 opening brackets, one more than the decoder accepts. -/
def deepBody : String := String.mk (List.replicate 10001 '[')

/-! ## The exchange -/

/-- The function `runWithJSONWith` is its three steps one after the other. -/
theorem runWithJSONWith_eq {V D : Type} (decode : String → graphResponse D → Decoded D)
    (E : Env V D) (c : Client) (req : Request V) (resp : D) :
    runWithJSONWith decode E c req resp = exchange decode E (buildJSON E c req) resp := by
  unfold runWithJSONWith exchange buildJSON readResponse
  cases encodeRequestBody E req with
  | error e => rfl
  | ok body =>
    cases E.newRequestErr c.endpoint with
    | some e => rfl
    | none =>
      dsimp only
      cases E.Do _ with
      | error e => rfl
      | ok res =>
        dsimp only
        cases res.Body.err with
        | some e => rfl
        | none =>
          dsimp only
          cases (decode res.Body.data ⟨resp, []⟩).err with
          | some e =>
            dsimp only
            split <;> rfl
          | none =>
            dsimp only
            cases (decode res.Body.data ⟨resp, []⟩).gr with
            | none => rfl
            | some g =>
              dsimp only
              cases g.Errors <;> rfl

/-- The function `runWithPostFieldsWith` is its three steps one after the
other. -/
theorem runWithPostFieldsWith_eq {V D : Type} (decode : String → graphResponse D → Decoded D)
    (E : Env V D) (c : Client) (req : Request V) (resp : D) :
    runWithPostFieldsWith decode E c req resp
      = exchange decode E (buildPostFields E c req) resp := by
  unfold runWithPostFieldsWith exchange buildPostFields readResponse
  cases E.OperationsJSON req with
  | error e => rfl
  | ok ops =>
    cases writeFiles E 0 req.files [] with
    | error e => rfl
    | ok parts =>
      cases E.closeErr with
      | some e => rfl
      | none =>
        cases req.Header with
        | none => rfl
        | some h =>
          cases E.newRequestErr c.endpoint with
          | some e => rfl
          | none =>
            dsimp only
            cases E.Do _ with
            | error e => rfl
            | ok res =>
              dsimp only
              cases res.Body.err with
              | some e => rfl
              | none =>
                dsimp only
                cases (decode res.Body.data ⟨resp, []⟩).err with
                | some e =>
                  dsimp only
                  split <;> rfl
                | none =>
                  dsimp only
                  cases (decode res.Body.data ⟨resp, []⟩).gr with
                  | none => rfl
                  | some g =>
                    dsimp only
                    cases g.Errors <;> rfl

/-- The function `runWithJSON` is its three steps with the decoder of
`encoding/json`. -/
theorem runWithJSON_eq {V D : Type} (E : Env V D) (c : Client) (req : Request V) (resp : D) :
    runWithJSON E c req resp = exchange (Decode E) E (buildJSON E c req) resp :=
  runWithJSONWith_eq (Decode E) E c req resp

/-- The function `runWithPostFields` is its three steps with the decoder of
`encoding/json`. -/
theorem runWithPostFields_eq {V D : Type} (E : Env V D) (c : Client) (req : Request V)
    (resp : D) :
    runWithPostFields E c req resp = exchange (Decode E) E (buildPostFields E c req) resp :=
  runWithPostFieldsWith_eq (Decode E) E c req resp

/-- The requests handed to the transport: the one that was built, if any. -/
theorem exchange_sent {V D : Type} (decode : String → graphResponse D → Decoded D)
    (E : Env V D) (b : Built V) (resp : D) :
    (exchange decode E b resp).sent
      = (match b.result with | .ok r => [r] | .error _ => []) := by
  unfold exchange
  cases hb : b.result with
  | error o => simp
  | ok r =>
    simp only
    cases E.Do r <;> simp

/-- The exchange does not touch the Request. -/
theorem exchange_req {V D : Type} (decode : String → graphResponse D → Decoded D)
    (E : Env V D) (b : Built V) (resp : D) :
    (exchange decode E b resp).req = b.req := by
  unfold exchange
  cases hb : b.result with
  | error o => simp
  | ok r =>
    simp only
    cases E.Do r <;> simp

/-- After a response has been delivered, the call ends as `readResponse` says. -/
theorem exchange_response {V D : Type} (decode : String → graphResponse D → Decoded D)
    (E : Env V D) (b : Built V) (resp : D) (r : HttpRequest) (res : HttpResponse)
    (hb : b.result = .ok r) (hdo : E.Do r = .ok res) :
    (exchange decode E b resp).outcome = (readResponse decode res resp).1 ∧
      (exchange decode E b resp).dest = (readResponse decode res resp).2 := by
  unfold exchange
  simp [hb, hdo]

/-- A request is handed to the transport exactly when it is the one built. -/
theorem mem_sent_iff {V D : Type} (decode : String → graphResponse D → Decoded D)
    (E : Env V D) (b : Built V) (resp : D) (r : HttpRequest) :
    r ∈ (exchange decode E b resp).sent ↔ b.result = .ok r := by
  rw [exchange_sent]
  cases hb : b.result with
  | error o => simp
  | ok r1 =>
    simp only [List.mem_singleton, Except.ok.injEq]
    exact eq_comm

/-- The request that `runWithJSON` hands to the transport is the one built
before the exchange. -/
theorem sent_json_iff {V D : Type} (E : Env V D) (c : Client) (req : Request V) (resp : D)
    (r : HttpRequest) :
    r ∈ (runWithJSON E c req resp).sent ↔ (buildJSON E c req).result = .ok r := by
  rw [runWithJSON_eq, mem_sent_iff]

/-- The request that `runWithPostFields` hands to the transport is the one
built before the exchange. -/
theorem sent_post_iff {V D : Type} (E : Env V D) (c : Client) (req : Request V) (resp : D)
    (r : HttpRequest) :
    r ∈ (runWithPostFields E c req resp).sent ↔ (buildPostFields E c req).result = .ok r := by
  rw [runWithPostFields_eq, mem_sent_iff]

/-- What `readResponse` does with a body that was read in full, in terms of
the state the decoder leaves. -/
theorem readResponse_read {D : Type} (decode : String → graphResponse D → Decoded D)
    (status : Int) (body : String) (resp : D) :
    readResponse decode ⟨status, ⟨body, none⟩⟩ resp =
      (match (decode body ⟨resp, []⟩).err, (decode body ⟨resp, []⟩).gr with
        | some err, _ =>
          if status ≠ 200 then
            .returned (some (.msg ("graphql: server returned a non-200 status code: "
              ++ toString status)))
          else .returned (some (.wrap err "decoding response"))
        | none, none => .panicked "invalid memory address or nil pointer dereference"
        | none, some g =>
          match g.Errors with
          | first :: _ => .returned (some (.graph first))
          | [] => .returned none,
       match (decode body ⟨resp, []⟩).gr with
        | some g => g.Data
        | none => resp) := by
  unfold readResponse
  simp only
  cases h1 : (decode body ⟨resp, []⟩).err with
  | some err => by_cases hs : status = 200 <;> simp [hs]
  | none =>
    cases h2 : (decode body ⟨resp, []⟩).gr with
    | none => simp
    | some g => cases h3 : g.Errors <;> simp [h3]

/-! ## Reading back what the encoder writes -/

/-- The value of the hexadecimal digit that stands for a number below 16. -/
theorem hexValue_hexDigit (d : Nat) (hd : d < 16) : hexValue (hexDigit d) = some d := by
  interval_cases d <;> decide

/-- The scanner after a backslash in plain text. -/
theorem scanString_backslash (rest : List Char) (acc : List (Char ⊕ Nat)) :
    scanString .plain ('\\' :: rest) acc = scanString .escape rest acc := by
  rw [scanString]
  simp

/-- The scanner at a one-letter escape. -/
theorem scanString_simple (c ch : Char) (hc : c ≠ 'u') (hs : simpleEscape c = some ch)
    (rest : List Char) (acc : List (Char ⊕ Nat)) :
    scanString .escape (c :: rest) acc = scanString .plain rest (.inl ch :: acc) := by
  rw [scanString]
  simp [hc, hs]

/-- The scanner at the letter `u` of an escape. -/
theorem scanString_u (rest : List Char) (acc : List (Char ⊕ Nat)) :
    scanString .escape ('u' :: rest) acc = scanString (.hex 0 0) rest acc := by
  rw [scanString]
  simp

/-- The scanner at one of the first three hexadecimal digits of an escape. -/
theorem scanString_hex (seen value x : Nat) (c : Char) (hx : hexValue c = some x)
    (hseen : seen ≠ 3) (rest : List Char) (acc : List (Char ⊕ Nat)) :
    scanString (.hex seen value) (c :: rest) acc
      = scanString (.hex (seen + 1) (value * 16 + x)) rest acc := by
  rw [scanString]
  simp [hx, hseen]

/-- The scanner at the last hexadecimal digit of an escape. -/
theorem scanString_hex_last (value x : Nat) (c : Char) (hx : hexValue c = some x)
    (rest : List Char) (acc : List (Char ⊕ Nat)) :
    scanString (.hex 3 value) (c :: rest) acc
      = scanString .plain rest (.inr (value * 16 + x) :: acc) := by
  rw [scanString]
  simp [hx]

/-- The scanner reads an escape `\uXXXX` as the number that it was written
for. -/
theorem scanString_unicodeEscape (n : Nat) (hn : n < 65536) (tail : List Char)
    (acc : List (Char ⊕ Nat)) :
    scanString .plain (unicodeEscape n ++ tail) acc = scanString .plain tail (.inr n :: acc) := by
  have h1 := hexValue_hexDigit (n / 4096 % 16) (Nat.mod_lt _ (by decide))
  have h2 := hexValue_hexDigit (n / 256 % 16) (Nat.mod_lt _ (by decide))
  have h3 := hexValue_hexDigit (n / 16 % 16) (Nat.mod_lt _ (by decide))
  have h4 := hexValue_hexDigit (n % 16) (Nat.mod_lt _ (by decide))
  have hv : (((0 * 16 + n / 4096 % 16) * 16 + n / 256 % 16) * 16 + n / 16 % 16) * 16 + n % 16
      = n := by omega
  simp only [unicodeEscape, List.cons_append, List.nil_append]
  rw [scanString_backslash, scanString_u, scanString_hex 0 0 _ _ h1 (by decide),
    scanString_hex 1 _ _ _ h2 (by decide), scanString_hex 2 _ _ _ h3 (by decide),
    scanString_hex_last _ _ _ h4, hv]

/-- A character whose number is known is that character. -/
theorem char_of_toNat (c : Char) (n : Nat) (h : c.toNat = n) : c = Char.ofNat n := by
  rw [← h, Char.ofNat_toNat]

/-- The scanner reads what the encoder writes for one character as one unit:
the character itself, or its number when it was written as `\uXXXX`, which the
encoder does only below the surrogates. -/
theorem scanString_escapeChar (c : Char) :
    ∃ u : Char ⊕ Nat, (u = .inl c ∨ (u = .inr c.toNat ∧ c.toNat < 55296)) ∧
      ∀ (tail : List Char) (acc : List (Char ⊕ Nat)),
        scanString .plain (escapeChar c ++ tail) acc = scanString .plain tail (u :: acc) := by
  unfold escapeChar
  split
  · next h =>
    subst h
    exact ⟨.inl '"', .inl rfl, fun tail acc => by
      rw [List.cons_append, List.cons_append, List.nil_append, scanString_backslash,
        scanString_simple '"' '"' (by decide) (by decide)]⟩
  split
  · next h =>
    subst h
    exact ⟨.inl '\\', .inl rfl, fun tail acc => by
      rw [List.cons_append, List.cons_append, List.nil_append, scanString_backslash,
        scanString_simple '\\' '\\' (by decide) (by decide)]⟩
  split
  · next h =>
    have hc := char_of_toNat c 8 h
    subst hc
    exact ⟨.inl (Char.ofNat 8), .inl rfl, fun tail acc => by
      rw [List.cons_append, List.cons_append, List.nil_append, scanString_backslash,
        scanString_simple 'b' (Char.ofNat 8) (by decide) (by decide)]⟩
  split
  · next h =>
    have hc := char_of_toNat c 12 h
    subst hc
    exact ⟨.inl (Char.ofNat 12), .inl rfl, fun tail acc => by
      rw [List.cons_append, List.cons_append, List.nil_append, scanString_backslash,
        scanString_simple 'f' (Char.ofNat 12) (by decide) (by decide)]⟩
  split
  · next h =>
    subst h
    exact ⟨.inl '\n', .inl rfl, fun tail acc => by
      rw [List.cons_append, List.cons_append, List.nil_append, scanString_backslash,
        scanString_simple 'n' '\n' (by decide) (by decide)]⟩
  split
  · next h =>
    subst h
    exact ⟨.inl '\r', .inl rfl, fun tail acc => by
      rw [List.cons_append, List.cons_append, List.nil_append, scanString_backslash,
        scanString_simple 'r' '\r' (by decide) (by decide)]⟩
  split
  · next h =>
    subst h
    exact ⟨.inl '\t', .inl rfl, fun tail acc => by
      rw [List.cons_append, List.cons_append, List.nil_append, scanString_backslash,
        scanString_simple 't' '\t' (by decide) (by decide)]⟩
  split
  · next h1 h2 h3 h4 h5 h6 h7 h =>
    have hsmall : c.toNat < 55296 := by
      rcases h with h | h | h | h | h | h
      · omega
      · subst h; decide
      · subst h; decide
      · subst h; decide
      · omega
      · omega
    exact ⟨.inr c.toNat, .inr ⟨rfl, hsmall⟩, fun tail acc =>
      scanString_unicodeEscape c.toNat (by omega) tail acc⟩
  · next h1 h2 h3 h4 h5 h6 h7 h =>
    have h32 : ¬ c.toNat < 32 := fun hlt => h (Or.inl hlt)
    exact ⟨.inl c, .inl rfl, fun tail acc => by
      rw [List.cons_append, List.nil_append, scanString]
      simp [h1, h2, h32]⟩

/-- A number below the surrogates stands for its character, whatever
follows. -/
theorem joinUnits_small (n : Nat) (hn : n < 55296) (rest : List (Char ⊕ Nat)) :
    joinUnits (.inr n :: rest) = Char.ofNat n :: joinUnits rest := by
  cases rest with
  | nil =>
    have h2 : ¬ (55296 ≤ n ∧ n < 57344) := by omega
    simp [joinUnits, h2]
  | cons u rest =>
    cases u with
    | inl c =>
      have h2 : ¬ (55296 ≤ n ∧ n < 57344) := by omega
      simp [joinUnits, h2]
    | inr lo =>
      rw [joinUnits]
      have h1 : ¬ (55296 ≤ n ∧ n < 56320 ∧ 56320 ≤ lo ∧ lo < 57344) := by omega
      have h2 : ¬ (55296 ≤ n ∧ n < 57344) := by omega
      simp [h1, h2]

/-- The scanner reads what the encoder writes for a text as units that join
to the text again. -/
theorem scanString_escaped (s : List Char) :
    ∃ units : List (Char ⊕ Nat),
      (∀ more, joinUnits (units ++ more) = s ++ joinUnits more) ∧
      ∀ (tail : List Char) (acc : List (Char ⊕ Nat)),
        scanString .plain (s.flatMap escapeChar ++ tail) acc
          = scanString .plain tail (units.reverse ++ acc) := by
  induction s with
  | nil => exact ⟨[], fun more => rfl, fun tail acc => rfl⟩
  | cons c s ih =>
    obtain ⟨units, hjoin, hscan⟩ := ih
    obtain ⟨u, hu, hstep⟩ := scanString_escapeChar c
    refine ⟨u :: units, fun more => ?_, fun tail acc => ?_⟩
    · rcases hu with hu | ⟨hu, hsmall⟩
      · subst hu
        rw [List.cons_append, joinUnits, hjoin, List.cons_append]
      · subst hu
        rw [List.cons_append, joinUnits_small _ hsmall, hjoin, List.cons_append,
          Char.ofNat_toNat]
    · rw [List.flatMap_cons, List.append_assoc, hstep, hscan, List.reverse_cons,
        List.append_assoc, List.singleton_append]

/-- The text that the encoder writes for a string, read after its opening
quote, is that string. -/
theorem scanText_escaped (s : List Char) (rest : List Char) :
    scanText (s.flatMap escapeChar ++ '"' :: rest) = .ok (String.mk s, rest) := by
  obtain ⟨units, hjoin, hscan⟩ := scanString_escaped s
  have h := hjoin []
  rw [List.append_nil] at h
  unfold scanText
  rw [hscan, scanString]
  simp [h, joinUnits]

/-- The text that the encoder writes for a string is a JSON value, and the
decoder reads it back as that string. -/
theorem readValue_jsonString (s : String) : readValue (jsonString s) = .ok (.str s) := by
  unfold readValue jsonString
  have hq : skipSpace ('"' :: (s.data.flatMap escapeChar ++ ['"']))
      = '"' :: (s.data.flatMap escapeChar ++ ['"']) := by
    rw [skipSpace]
    simp [isSpace]
  simp only [hq]
  rw [scanValue, hq]
  simp [scanText_escaped]

/-- The value of a JSON string that stands in front of other text. -/
theorem scanValue_jsonString (n depth : Nat) (s : String) (rest : List Char) :
    scanValue (n + 1) depth ((jsonString s).data ++ rest) = .ok (.str s, rest) := by
  have hq : skipSpace ('"' :: (s.data.flatMap escapeChar ++ '"' :: rest))
      = '"' :: (s.data.flatMap escapeChar ++ '"' :: rest) := by
    rw [skipSpace]
    simp [isSpace]
  unfold jsonString
  simp only [List.cons_append, List.append_assoc, List.singleton_append, List.nil_append]
  rw [scanValue, hq]
  simp [scanText_escaped]

/-- The body that `runWithJSON` writes for a document without variables is a
JSON object with the two members `query` and `variables`, in that order, the
first being the document and the second `null`. -/
theorem readValue_body_nil (q : String) :
    readValue ("\x7b\"query\":" ++ jsonString q ++ ",\"variables\":" ++ "null" ++ "\x7d\n")
      = .ok (.obj [("query", .str q), ("variables", .null)]) := by
  have hdata : ("\x7b\"query\":" ++ jsonString q ++ ",\"variables\":" ++ "null" ++ "\x7d\n").data
      = '\x7b' :: '"' :: 'q' :: 'u' :: 'e' :: 'r' :: 'y' :: '"' :: ':' ::
          ((jsonString q).data ++ ',' :: '"' :: 'v' :: 'a' :: 'r' :: 'i' :: 'a' :: 'b' :: 'l' ::
            'e' :: 's' :: '"' :: ':' :: 'n' :: 'u' :: 'l' :: 'l' :: '\x7d' :: ['\n']) := by
    simp only [String.data_append]
    simp
  have hkey1 : ∀ rest, scanText ('q' :: 'u' :: 'e' :: 'r' :: 'y' :: '"' :: rest)
      = .ok ("query", rest) := fun rest => scanText_escaped "query".data rest
  have hkey2 : ∀ rest, scanText ('v' :: 'a' :: 'r' :: 'i' :: 'a' :: 'b' :: 'l' :: 'e' :: 's' ::
      '"' :: rest) = .ok ("variables", rest) := fun rest => scanText_escaped "variables".data rest
  unfold readValue
  rw [hdata]
  generalize hlen : ('\x7b' :: '"' :: 'q' :: 'u' :: 'e' :: 'r' :: 'y' :: '"' :: ':' ::
          ((jsonString q).data ++ ',' :: '"' :: 'v' :: 'a' :: 'r' :: 'i' :: 'a' :: 'b' :: 'l' ::
            'e' :: 's' :: '"' :: ':' :: 'n' :: 'u' :: 'l' :: 'l' :: '\x7d' :: ['\n'])).length = len
  have hfuel : 2 * len + 2 = (2 * len - 1) + 3 := by
    have : 1 ≤ len := by
      rw [← hlen]
      simp
    omega
  rw [hfuel]
  generalize 2 * len - 1 = k
  have hs1 : ∀ cs, skipSpace ('\x7b' :: cs) = '\x7b' :: cs := fun cs => by
    rw [skipSpace]; simp [isSpace]
  have hs2 : ∀ cs, skipSpace ('"' :: cs) = '"' :: cs := fun cs => by
    rw [skipSpace]; simp [isSpace]
  have hs3 : ∀ cs, skipSpace (':' :: cs) = ':' :: cs := fun cs => by
    rw [skipSpace]; simp [isSpace]
  have hs4 : ∀ cs, skipSpace (',' :: cs) = ',' :: cs := fun cs => by
    rw [skipSpace]; simp [isSpace]
  have hs5 : ∀ cs, skipSpace ('\x7d' :: cs) = '\x7d' :: cs := fun cs => by
    rw [skipSpace]; simp [isSpace]
  have hs6 : ∀ cs, skipSpace ('n' :: cs) = 'n' :: cs := fun cs => by
    rw [skipSpace]; simp [isSpace]
  have hnull : ∀ cs, scanValue (k + 2) 1 ('n' :: 'u' :: 'l' :: 'l' :: cs) = .ok (.null, cs) := by
    intro cs
    rw [scanValue, hs6]
    simp [scanLiteral]
  have hdepth : ¬ maxNestingDepth < 0 + 1 := by decide
  simp only [hs1]
  rw [scanValue, hs1]
  simp only [hdepth, hs2, if_false]
  rw [scanMembers, hs2]
  simp only [hkey1, hs3, scanValue_jsonString, hs4]
  simp only [if_true, if_false]
  rw [scanMembers, hs2]
  simp only [hkey2, hs3, hnull, hs5]
  simp

/-! ## The request body -/

/-- C1: a request that `runWithJSON` hands to the transport has as its body
the JSON object with the two members `query` and `variables`, in that order and
without white space, followed by one newline; the member `variables` is always
there and is the literal `null` when the variables map is nil.  Such a request
is handed over whenever the variables can be encoded and `http.NewRequest`
accepts the endpoint.  The text written for the document is a JSON string that
reads back as the document, and without variables the whole body reads back as
the object whose members are `query`, the document, and `variables`, `null`. -/
theorem C1_json_request_body {V D : Type} (E : Env V D) (c : Client) (req : Request V)
    (resp : D) :
    (∀ r ∈ (runWithJSON E c req resp).sent,
      ∃ v, jsonMap E.marshal req.vars = .ok v ∧ (req.vars = none → v = "null") ∧
        r.Body = .raw ("\x7b\"query\":" ++ jsonString req.q ++ ",\"variables\":" ++ v
          ++ "\x7d\n")) ∧
    (∀ v, jsonMap E.marshal req.vars = .ok v → E.newRequestErr c.endpoint = none →
      ∃ r, (runWithJSON E c req resp).sent = [r]) ∧
    readValue (jsonString req.q) = .ok (.str req.q) ∧
    (req.vars = none → ∀ r ∈ (runWithJSON E c req resp).sent,
      ∃ text, r.Body = .raw text ∧
        readValue text = .ok (.obj [("query", .str req.q), ("variables", .null)])) := by
  have hbody : ∀ r ∈ (runWithJSON E c req resp).sent,
      ∃ v, jsonMap E.marshal req.vars = .ok v ∧ (req.vars = none → v = "null") ∧
        r.Body = .raw ("\x7b\"query\":" ++ jsonString req.q ++ ",\"variables\":" ++ v
          ++ "\x7d\n") := by
    intro r hr
    rw [runWithJSON_eq, exchange_sent] at hr
    unfold buildJSON encodeRequestBody at hr
    cases hv : jsonMap E.marshal req.vars with
    | error e => simp [hv] at hr
    | ok v =>
      refine ⟨v, rfl, ?_, ?_⟩
      · intro hnone
        rw [hnone] at hv
        simp [jsonMap] at hv
        exact hv.symm
      · simp only [hv] at hr
        cases hn : E.newRequestErr c.endpoint with
        | some err => simp [hn] at hr
        | none =>
          simp only [hn, List.mem_singleton] at hr
          subst hr
          have e1 : ("\x7b\"query\":" : String) = "\x7b" ++ jsonString "query" ++ ":" := by
            decide
          have e2 : (",\"variables\":" : String) = "," ++ jsonString "variables" ++ ":" := by
            decide
          have e3 : ("\x7d\n" : String) = "\x7d" ++ "\n" := by decide
          simp only [jsonObject, List.map, String.intercalate, String.intercalate.go, e1, e2,
            e3, String.append_assoc]
  refine ⟨hbody, ?_, readValue_jsonString req.q, ?_⟩
  · intro v hv hn
    rw [runWithJSON_eq, exchange_sent]
    unfold buildJSON encodeRequestBody
    simp [hv, hn]
  · intro hnone r hr
    obtain ⟨v, _, hnull, hraw⟩ := hbody r hr
    rw [hnull hnone] at hraw
    exact ⟨_, hraw, readValue_body_nil req.q⟩

set_option maxRecDepth 100000 in
/-- C1 at the requests of `TestDoJSON` and `TestQueryJSON`, whose bodies are
the two texts that the tests compare with, at a Request whose document and
variables hold every kind of character that is escaped and whose variable names
are out of order, and at an empty document with an empty variables map; the
body of `TestDoJSON` reads back as the object with the document and `null`. -/
theorem C1_json_request_body_examples :
    (runWithJSON (exampleEnv false 200 dataBody) exampleClient
        plainRequest JSON.null).sent.map (fun r => r.Body)
      = [.raw "\x7b\"query\":\"query \x7b\x7d\",\"variables\":null\x7d\n"] ∧
    (runWithJSON (exampleEnv false 200 dataBody) exampleClient
        queryRequest JSON.null).sent.map (fun r => r.Body)
      = [.raw "\x7b\"query\":\"query \x7b\x7d\",\"variables\":\x7b\"username\":\"matryer\"\x7d\x7d\n"] ∧
    (runWithJSON (exampleEnv false 200 dataBody) exampleClient
        trickyRequest JSON.null).sent.map (fun r => r.Body) = [.raw trickyBody] ∧
    (runWithJSON (exampleEnv false 200 dataBody) exampleClient
        emptyRequest JSON.null).sent.map (fun r => r.Body)
      = [.raw "\x7b\"query\":\"\",\"variables\":\x7b\x7d\x7d\n"] ∧
    (∃ r, (runWithJSON (exampleEnv false 200 dataBody)
        exampleClient plainRequest JSON.null).sent = [r]) ∧
    readValue (jsonString trickyRequest.q) = .ok (.str trickyRequest.q) ∧
    (∃ text, plainOutgoing.Body = .raw text ∧
      readValue text = .ok (.obj [("query", .str "query \x7b\x7d"), ("variables", .null)])) :=
  ⟨by decide, by decide, by decide, by decide,
    (C1_json_request_body (exampleEnv false 200 dataBody)
      exampleClient plainRequest JSON.null).2.1 "null" rfl rfl,
    (C1_json_request_body (exampleEnv false 200 dataBody)
      exampleClient trickyRequest JSON.null).2.2.1,
    (C1_json_request_body (exampleEnv false 200 dataBody)
      exampleClient plainRequest JSON.null).2.2.2 rfl plainOutgoing (by decide)⟩

/-! ## The nesting limit -/

/-- An array opened below `maxNestingDepth` arrays or objects is refused. -/
theorem scanValue_deep (m : Nat) : ∀ (fuel depth : Nat) (rest : List Char),
    depth + m = maxNestingDepth → m < fuel →
    scanValue fuel depth (List.replicate (m + 1) '[' ++ rest)
      = .error (invalidCharacter '[' "exceeded max depth") := by
  have hs : ∀ cs, skipSpace ('[' :: cs) = '[' :: cs := fun cs => by
    rw [skipSpace]; simp [isSpace]
  induction m with
  | zero =>
    intro fuel depth rest hd hf
    obtain ⟨f, rfl⟩ : ∃ f, fuel = f + 1 := ⟨fuel - 1, by omega⟩
    have hlt : maxNestingDepth < depth + 1 := by omega
    rw [List.replicate_succ, List.cons_append, scanValue, hs]
    simp [hlt]
  | succ m ih =>
    intro fuel depth rest hd hf
    obtain ⟨f, rfl⟩ : ∃ f, fuel = f + 2 := ⟨fuel - 2, by omega⟩
    have hlt : ¬ maxNestingDepth < depth + 1 := by omega
    have hin := ih (f + 1) (depth + 1) rest (by omega) (by omega)
    rw [List.replicate_succ, List.cons_append, scanValue, hs]
    rw [List.replicate_succ, List.cons_append] at hin ⊢
    simp only [hs]
    rw [scanElements, hin]
    simp [hlt]

/-- A body of 10001 opening brackets cannot be read: it is nested deeper than
the decoder accepts. -/
theorem readValue_deep (body : String) (hbody : body.data = List.replicate 10001 '[') :
    readValue body = .error (invalidCharacter '[' "exceeded max depth") := by
  have hs : ∀ cs, skipSpace ('[' :: cs) = '[' :: cs := fun cs => by
    rw [skipSpace]; simp [isSpace]
  have hmax : 0 + 10000 = maxNestingDepth := rfl
  have h := scanValue_deep 10000 (2 * 10001 + 2) 0 [] hmax (by omega)
  have hrep : List.replicate 10001 '[' = '[' :: List.replicate 10000 '[' :=
    List.replicate_succ '[' 10000
  have h1 : List.replicate (10000 + 1) '[' ++ [] = List.replicate 10001 '[' :=
    List.append_nil _
  rw [h1] at h
  unfold readValue
  rw [hbody, List.length_replicate]
  have hskip : skipSpace (List.replicate 10001 '[') = List.replicate 10001 '[' := by
    rw [hrep, hs]
  rw [hskip]
  split
  · next hnil =>
    rw [hrep] at hnil
    exact absurd hnil (List.cons_ne_nil _ _)
  · rw [h]

/-- The characters of the body of 10001 opening brackets. -/
theorem deepBody_data : deepBody.data = List.replicate 10001 '[' := by
  unfold deepBody
  simp only []

/-- The body of 10001 opening brackets cannot be read. -/
theorem readValue_deepBody :
    readValue deepBody = .error (invalidCharacter '[' "exceeded max depth") :=
  readValue_deep deepBody deepBody_data

/-- A body that cannot be read makes the decoder report the error of the
scanner and leave the envelope as it was. -/
theorem Decode_of_error {V D : Type} (E : Env V D) (body : String) (gr : graphResponse D)
    (e : GoError) (h : readValue body = .error e) : Decode E body gr = ⟨some e, some gr⟩ := by
  unfold Decode
  rw [h]

/-- The decoder refuses the body of 10001 opening brackets. -/
theorem Decode_deepBody {V D : Type} (E : Env V D) (gr : graphResponse D) :
    Decode E deepBody gr = ⟨some (invalidCharacter '[' "exceeded max depth"), some gr⟩ :=
  Decode_of_error E deepBody gr _ readValue_deepBody

/-! ## The response

The three theorems of this section hold for whatever the decoder does: the
argument `decode` stands for the call `json.NewDecoder(&buf).Decode(&gr)`, and
`runWithJSON` and `runWithPostFields` are the case `decode = Decode E`. -/

/-- The outcome and the destination of either function once the request is
built and the transport has delivered a response whose body can be read. -/
theorem exchange_read {V D : Type} (decode : String → graphResponse D → Decoded D)
    (E : Env V D) (b : Built V) (resp : D)
    (r : HttpRequest) (status : Int) (body : String)
    (hb : b.result = .ok r) (hdo : E.Do r = .ok ⟨status, ⟨body, none⟩⟩) :
    (exchange decode E b resp).outcome =
      (match (decode body ⟨resp, []⟩).err, (decode body ⟨resp, []⟩).gr with
        | some err, _ =>
          if status ≠ 200 then
            .returned (some (.msg ("graphql: server returned a non-200 status code: "
              ++ toString status)))
          else .returned (some (.wrap err "decoding response"))
        | none, none => .panicked "invalid memory address or nil pointer dereference"
        | none, some g =>
          match g.Errors with
          | first :: _ => .returned (some (.graph first))
          | [] => .returned none) ∧
    (exchange decode E b resp).dest =
      (match (decode body ⟨resp, []⟩).gr with
        | some g => g.Data
        | none => resp) := by
  have h := exchange_response decode E b resp r _ hb hdo
  rw [readResponse_read] at h
  exact h

/-- C2: when the decoder reports no error and leaves an envelope whose errors
list is not empty, both functions return the first entry of that list as the
error, whatever the status code is, and the text of that error is `graphql: `
followed by the message of the entry. -/
theorem C2_first_graphql_error {V D : Type} (decode : String → graphResponse D → Decoded D)
    (E : Env V D) (c : Client) (req : Request V)
    (resp : D) (status : Int) (body : String) (g : graphResponse D)
    (first : GraphErr) (rest : List GraphErr)
    (hdec : decode body ⟨resp, []⟩ = ⟨none, some g⟩)
    (herrs : g.Errors = first :: rest) :
    (∀ r ∈ (runWithJSONWith decode E c req resp).sent,
      E.Do r = .ok ⟨status, ⟨body, none⟩⟩ →
      (runWithJSONWith decode E c req resp).outcome = .returned (some (.graph first))) ∧
    (∀ r ∈ (runWithPostFieldsWith decode E c req resp).sent,
      E.Do r = .ok ⟨status, ⟨body, none⟩⟩ →
      (runWithPostFieldsWith decode E c req resp).outcome
        = .returned (some (.graph first))) ∧
    (GoError.graph first).Error = "graphql: " ++ first.Message := by
  rw [runWithJSONWith_eq, runWithPostFieldsWith_eq]
  refine ⟨?_, ?_, rfl⟩
  · intro r hr hdo
    have h := (exchange_read decode E _ resp r status body
      ((mem_sent_iff decode E _ resp r).1 hr) hdo).1
    rw [hdec] at h
    simpa [herrs] using h
  · intro r hr hdo
    have h := (exchange_read decode E _ resp r status body
      ((mem_sent_iff decode E _ resp r).1 hr) hdo).1
    rw [hdec] at h
    simpa [herrs] using h

/-- C2 at the response of `TestDoJSONBadRequestErr`, status 400 with an errors
list of one entry, on both paths: the error is the entry, and its text is the
one that the test compares with; at a body whose member `errors` comes twice,
where the entry of the first array is the one returned; at a body whose
member name is spelt with the long s, which the decoder takes for `errors`; and
at status 400 with the body `{"errors":[{"message":"bad"}]}`. -/
theorem C2_first_graphql_error_witness :
    Decode (exampleEnv false 400 testErrorsBody) testErrorsBody ⟨JSON.null, []⟩
      = ⟨none, some ⟨JSON.null,
          [⟨"miscellaneous message as to why the the request was bad", none, none⟩]⟩⟩ ∧
    (runWithJSON (exampleEnv false 400 testErrorsBody)
        exampleClient plainRequest JSON.null).outcome
      = .returned (some (.graph
          ⟨"miscellaneous message as to why the the request was bad", none, none⟩)) ∧
    (runWithPostFields (exampleEnv false 400 testErrorsBody)
        exampleClient uploadRequest JSON.null).outcome
      = .returned (some (.graph
          ⟨"miscellaneous message as to why the the request was bad", none, none⟩)) ∧
    (GoError.graph
        ⟨"miscellaneous message as to why the the request was bad", none, none⟩).Error
      = "graphql: miscellaneous message as to why the the request was bad" ∧
    (runWithJSON (exampleEnv false 200 repeatedErrorsBody)
        exampleClient plainRequest JSON.null).outcome
      = .returned (some (.graph ⟨"a", none, none⟩)) ∧
    (runWithJSON (exampleEnv false 200 foldedErrorsBody)
        exampleClient plainRequest JSON.null).outcome
      = .returned (some (.graph ⟨"bad", none, none⟩)) ∧
    (runWithPostFields (exampleEnv false 400 errorsBody)
        exampleClient uploadRequest JSON.null).outcome
      = .returned (some (.graph ⟨"bad", none, none⟩)) :=
  ⟨rfl,
    (C2_first_graphql_error (Decode (exampleEnv false 400 testErrorsBody))
      (exampleEnv false 400 testErrorsBody) exampleClient plainRequest
      JSON.null 400 testErrorsBody
      ⟨JSON.null, [⟨"miscellaneous message as to why the the request was bad", none, none⟩]⟩
      ⟨"miscellaneous message as to why the the request was bad", none, none⟩ []
      rfl rfl).1 plainOutgoing (by decide) rfl,
    (C2_first_graphql_error (Decode (exampleEnv false 400 testErrorsBody))
      (exampleEnv false 400 testErrorsBody) exampleClient uploadRequest
      JSON.null 400 testErrorsBody
      ⟨JSON.null, [⟨"miscellaneous message as to why the the request was bad", none, none⟩]⟩
      ⟨"miscellaneous message as to why the the request was bad", none, none⟩ []
      rfl rfl).2.1 uploadOutgoing (by decide) rfl,
    by decide,
    (C2_first_graphql_error (Decode (exampleEnv false 200 repeatedErrorsBody))
      (exampleEnv false 200 repeatedErrorsBody) exampleClient plainRequest
      JSON.null 200 repeatedErrorsBody ⟨JSON.null, [⟨"a", none, none⟩]⟩ ⟨"a", none, none⟩ []
      rfl rfl).1 plainOutgoing (by decide) rfl,
    (C2_first_graphql_error (Decode (exampleEnv false 200 foldedErrorsBody))
      (exampleEnv false 200 foldedErrorsBody) exampleClient plainRequest
      JSON.null 200 foldedErrorsBody ⟨JSON.null, [⟨"bad", none, none⟩]⟩ ⟨"bad", none, none⟩ []
      rfl rfl).1 plainOutgoing (by decide) rfl,
    (C2_first_graphql_error (Decode (exampleEnv false 400 errorsBody))
      (exampleEnv false 400 errorsBody) exampleClient uploadRequest
      JSON.null 400 errorsBody ⟨JSON.null, [⟨"bad", none, none⟩]⟩ ⟨"bad", none, none⟩ []
      rfl rfl).2.1 uploadOutgoing (by decide) rfl⟩

/-- C3: when the decoder reports an error, both functions return the status
error if the status code is not 200, with a text that is made of the status
code alone, and the error of the decoder wrapped as `decoding response` if it
is 200; the status error is returned exactly when the decoder reported an error
and the status code is not 200. -/
theorem C3_decode_failure {V D : Type} (decode : String → graphResponse D → Decoded D)
    (E : Env V D) (c : Client) (req : Request V)
    (resp : D) (status : Int) (body : String) (err : GoError)
    (hdec : (decode body ⟨resp, []⟩).err = some err) :
    (∀ r ∈ (runWithJSONWith decode E c req resp).sent,
      E.Do r = .ok ⟨status, ⟨body, none⟩⟩ →
      (status ≠ 200 → (runWithJSONWith decode E c req resp).outcome = .returned (some (.msg
        ("graphql: server returned a non-200 status code: " ++ toString status)))) ∧
      (status = 200 → (runWithJSONWith decode E c req resp).outcome
        = .returned (some (.wrap err "decoding response")))) ∧
    (∀ r ∈ (runWithPostFieldsWith decode E c req resp).sent,
      E.Do r = .ok ⟨status, ⟨body, none⟩⟩ →
      (status ≠ 200 → (runWithPostFieldsWith decode E c req resp).outcome
        = .returned (some (.msg
          ("graphql: server returned a non-200 status code: " ++ toString status)))) ∧
      (status = 200 → (runWithPostFieldsWith decode E c req resp).outcome
        = .returned (some (.wrap err "decoding response")))) ∧
    (∀ r body1, r ∈ (runWithJSONWith decode E c req resp).sent →
      E.Do r = .ok ⟨status, ⟨body1, none⟩⟩ →
      ((runWithJSONWith decode E c req resp).outcome = .returned (some (.msg
        ("graphql: server returned a non-200 status code: " ++ toString status))) ↔
        (decode body1 ⟨resp, []⟩).err ≠ none ∧ status ≠ 200)) ∧
    (∀ r body1, r ∈ (runWithPostFieldsWith decode E c req resp).sent →
      E.Do r = .ok ⟨status, ⟨body1, none⟩⟩ →
      ((runWithPostFieldsWith decode E c req resp).outcome = .returned (some (.msg
        ("graphql: server returned a non-200 status code: " ++ toString status))) ↔
        (decode body1 ⟨resp, []⟩).err ≠ none ∧ status ≠ 200)) ∧
    (GoError.msg ("graphql: server returned a non-200 status code: "
      ++ toString status)).Error
        = "graphql: server returned a non-200 status code: " ++ toString status ∧
    (GoError.wrap err "decoding response").Error = "decoding response: " ++ err.Error := by
  have key : ∀ (b : Built V) (r : HttpRequest) (body1 : String), b.result = .ok r →
      E.Do r = .ok ⟨status, ⟨body1, none⟩⟩ →
      ((exchange decode E b resp).outcome = .returned (some (.msg
        ("graphql: server returned a non-200 status code: " ++ toString status))) ↔
        (decode body1 ⟨resp, []⟩).err ≠ none ∧ status ≠ 200) := by
    intro b r body1 hb hdo
    rw [(exchange_read decode E b resp r status body1 hb hdo).1]
    cases h1 : (decode body1 ⟨resp, []⟩).err with
    | some e => by_cases hs : status = 200 <;> simp [hs]
    | none =>
      cases h2 : (decode body1 ⟨resp, []⟩).gr with
      | none => simp
      | some g1 => cases h3 : g1.Errors <;> simp [h3]
  rw [runWithJSONWith_eq, runWithPostFieldsWith_eq]
  refine ⟨?_, ?_,
    fun r body1 hr hdo => key _ r body1 ((mem_sent_iff decode E _ resp r).1 hr) hdo,
    fun r body1 hr hdo => key _ r body1 ((mem_sent_iff decode E _ resp r).1 hr) hdo,
    rfl, rfl⟩
  · intro r hr hdo
    have h := (exchange_read decode E _ resp r status body
      ((mem_sent_iff decode E _ resp r).1 hr) hdo).1
    rw [hdec] at h
    constructor
    · intro hs
      simpa [hs] using h
    · intro hs
      simpa [hs] using h
  · intro r hr hdo
    have h := (exchange_read decode E _ resp r status body
      ((mem_sent_iff decode E _ resp r).1 hr) hdo).1
    rw [hdec] at h
    constructor
    · intro hs
      simpa [hs] using h
    · intro hs
      simpa [hs] using h

/-- C3 at the response of `TestDoJSONServerError`, status 500 with the body
`Internal Server Error`, where the text of the error is the one that the test
compares with, at the same body under status 200, and at a body nested deeper
than the decoder accepts under both status codes. -/
theorem C3_decode_failure_witness :
    (Decode (exampleEnv false 500 serverErrorBody) serverErrorBody ⟨JSON.null, []⟩).err
      = some (.msg "invalid character 'I' looking for beginning of value") ∧
    (runWithJSON (exampleEnv false 500 serverErrorBody) exampleClient plainRequest
        JSON.null).outcome
      = .returned (some (.msg "graphql: server returned a non-200 status code: 500")) ∧
    (runWithPostFields (exampleEnv false 200 serverErrorBody) exampleClient uploadRequest
        JSON.null).outcome
      = .returned (some (.wrap (.msg "invalid character 'I' looking for beginning of value")
          "decoding response")) ∧
    (GoError.wrap (.msg "invalid character 'I' looking for beginning of value")
        "decoding response").Error
      = "decoding response: invalid character 'I' looking for beginning of value" ∧
    (runWithJSON (exampleEnv false 500 deepBody) exampleClient plainRequest
        JSON.null).outcome
      = .returned (some (.msg "graphql: server returned a non-200 status code: 500")) ∧
    (runWithJSON (exampleEnv false 200 deepBody) exampleClient plainRequest
        JSON.null).outcome
      = .returned (some (.wrap (.msg "invalid character '[' exceeded max depth")
          "decoding response")) :=
  ⟨rfl,
    ((C3_decode_failure (Decode (exampleEnv false 500 serverErrorBody))
      (exampleEnv false 500 serverErrorBody) exampleClient plainRequest
      JSON.null 500 serverErrorBody
      (.msg "invalid character 'I' looking for beginning of value")
      rfl).1 plainOutgoing (by decide) rfl).1 (by decide),
    ((C3_decode_failure (Decode (exampleEnv false 200 serverErrorBody))
      (exampleEnv false 200 serverErrorBody) exampleClient uploadRequest
      JSON.null 200 serverErrorBody
      (.msg "invalid character 'I' looking for beginning of value")
      rfl).2.1 uploadOutgoing (by decide) rfl).2 rfl,
    by decide,
    ((C3_decode_failure (Decode (exampleEnv false 500 deepBody))
      (exampleEnv false 500 deepBody) exampleClient plainRequest
      JSON.null 500 deepBody (invalidCharacter '[' "exceeded max depth")
      (congrArg Decoded.err (Decode_deepBody (exampleEnv false 500 deepBody) ⟨JSON.null, []⟩))).1
      plainOutgoing
      ((sent_json_iff (exampleEnv false 500 deepBody) exampleClient plainRequest JSON.null
        plainOutgoing).2 rfl) rfl).1 (by decide),
    ((C3_decode_failure (Decode (exampleEnv false 200 deepBody))
      (exampleEnv false 200 deepBody) exampleClient plainRequest
      JSON.null 200 deepBody (invalidCharacter '[' "exceeded max depth")
      (congrArg Decoded.err (Decode_deepBody (exampleEnv false 200 deepBody) ⟨JSON.null, []⟩))).1
      plainOutgoing
      ((sent_json_iff (exampleEnv false 200 deepBody) exampleClient plainRequest JSON.null
        plainOutgoing).2 rfl) rfl).2 rfl⟩

/-- C4: when the decoder reports no error and leaves an envelope whose errors
list is empty, both functions return nil, and the destination is the one that
the envelope holds in `Data`, as the decoder left it. -/
theorem C4_success_fills_destination {V D : Type}
    (decode : String → graphResponse D → Decoded D) (E : Env V D) (c : Client)
    (req : Request V) (resp : D) (status : Int) (body : String) (g : graphResponse D)
    (hdec : decode body ⟨resp, []⟩ = ⟨none, some g⟩)
    (herrs : g.Errors = []) :
    (∀ r ∈ (runWithJSONWith decode E c req resp).sent,
      E.Do r = .ok ⟨status, ⟨body, none⟩⟩ →
      (runWithJSONWith decode E c req resp).outcome = .returned none ∧
      (runWithJSONWith decode E c req resp).dest = g.Data) ∧
    (∀ r ∈ (runWithPostFieldsWith decode E c req resp).sent,
      E.Do r = .ok ⟨status, ⟨body, none⟩⟩ →
      (runWithPostFieldsWith decode E c req resp).outcome = .returned none ∧
      (runWithPostFieldsWith decode E c req resp).dest = g.Data) := by
  rw [runWithJSONWith_eq, runWithPostFieldsWith_eq]
  refine ⟨?_, ?_⟩
  · intro r hr hdo
    have h := exchange_read decode E _ resp r status body
      ((mem_sent_iff decode E _ resp r).1 hr) hdo
    rw [hdec] at h
    simpa [herrs] using h
  · intro r hr hdo
    have h := exchange_read decode E _ resp r status body
      ((mem_sent_iff decode E _ resp r).1 hr) hdo
    rw [hdec] at h
    simpa [herrs] using h

/-- C4 at status 200 and the body `{"data":{"v":"x"}}` on both paths, at the
response of `TestDoJSON`, and at a body whose errors list is there and empty:
the call succeeds and the destination holds the value of the member `data`. -/
theorem C4_success_fills_destination_witness :
    Decode (exampleEnv false 200 dataBody) dataBody ⟨JSON.null, []⟩
      = ⟨none, some ⟨.obj [("v", .str "x")], []⟩⟩ ∧
    (runWithJSON (exampleEnv false 200 dataBody) exampleClient plainRequest
        JSON.null).outcome = .returned none ∧
    (runWithJSON (exampleEnv false 200 dataBody) exampleClient plainRequest
        JSON.null).dest = .obj [("v", .str "x")] ∧
    (runWithPostFields (exampleEnv false 200 dataBody) exampleClient uploadRequest
        JSON.null).outcome = .returned none ∧
    (runWithPostFields (exampleEnv false 200 dataBody) exampleClient uploadRequest
        JSON.null).dest = .obj [("v", .str "x")] ∧
    (runWithJSON (exampleEnv false 200 testDataBody) exampleClient plainRequest
        JSON.null).outcome = .returned none ∧
    (runWithJSON (exampleEnv false 200 testDataBody) exampleClient plainRequest
        JSON.null).dest = .obj [("something", .str "yes")] ∧
    (runWithJSON (exampleEnv false 200 emptyErrorsBody) exampleClient plainRequest
        JSON.null).outcome = .returned none ∧
    (runWithJSON (exampleEnv false 200 emptyErrorsBody) exampleClient plainRequest
        JSON.null).dest = .obj [("v", .str "x")] :=
  ⟨rfl,
    ((C4_success_fills_destination (Decode (exampleEnv false 200 dataBody))
      (exampleEnv false 200 dataBody) exampleClient plainRequest
      JSON.null 200 dataBody ⟨.obj [("v", .str "x")], []⟩ rfl rfl).1
      plainOutgoing (by decide) rfl).1,
    ((C4_success_fills_destination (Decode (exampleEnv false 200 dataBody))
      (exampleEnv false 200 dataBody) exampleClient plainRequest
      JSON.null 200 dataBody ⟨.obj [("v", .str "x")], []⟩ rfl rfl).1
      plainOutgoing (by decide) rfl).2,
    ((C4_success_fills_destination (Decode (exampleEnv false 200 dataBody))
      (exampleEnv false 200 dataBody) exampleClient uploadRequest
      JSON.null 200 dataBody ⟨.obj [("v", .str "x")], []⟩ rfl rfl).2
      uploadOutgoing (by decide) rfl).1,
    ((C4_success_fills_destination (Decode (exampleEnv false 200 dataBody))
      (exampleEnv false 200 dataBody) exampleClient uploadRequest
      JSON.null 200 dataBody ⟨.obj [("v", .str "x")], []⟩ rfl rfl).2
      uploadOutgoing (by decide) rfl).2,
    ((C4_success_fills_destination (Decode (exampleEnv false 200 testDataBody))
      (exampleEnv false 200 testDataBody) exampleClient plainRequest
      JSON.null 200 testDataBody ⟨.obj [("something", .str "yes")], []⟩ rfl rfl).1
      plainOutgoing (by decide) rfl).1,
    ((C4_success_fills_destination (Decode (exampleEnv false 200 testDataBody))
      (exampleEnv false 200 testDataBody) exampleClient plainRequest
      JSON.null 200 testDataBody ⟨.obj [("something", .str "yes")], []⟩ rfl rfl).1
      plainOutgoing (by decide) rfl).2,
    ((C4_success_fills_destination (Decode (exampleEnv false 200 emptyErrorsBody))
      (exampleEnv false 200 emptyErrorsBody) exampleClient plainRequest
      JSON.null 200 emptyErrorsBody ⟨.obj [("v", .str "x")], []⟩ rfl rfl).1
      plainOutgoing (by decide) rfl).1,
    ((C4_success_fills_destination (Decode (exampleEnv false 200 emptyErrorsBody))
      (exampleEnv false 200 emptyErrorsBody) exampleClient plainRequest
      JSON.null 200 emptyErrorsBody ⟨.obj [("v", .str "x")], []⟩ rfl rfl).1
      plainOutgoing (by decide) rfl).2⟩

/-! ## The nil envelope -/

/-- The decoder reports no error and leaves the pointer nil exactly when the
first JSON value of the body is the literal `null`. -/
theorem Decode_nil_iff {V D : Type} (E : Env V D) (body : String) (gr : graphResponse D) :
    ((Decode E body gr).err = none ∧ (Decode E body gr).gr = none) ↔
      readValue body = .ok .null := by
  unfold Decode
  cases hv : readValue body with
  | error e => simp
  | ok v => cases v <;> simp

/-- C10 does not hold: for the body `null`, and for every body whose first
JSON value is the literal `null`, the decoder reports no error and leaves the
pointer `gr` nil, so both functions reach the read of `gr.Errors` with a nil
pointer and end in a panic instead of returning, whatever the status code.
For every other body both functions return. -/
theorem C10_null_body_panics {V D : Type} (E : Env V D) (c : Client) (req : Request V)
    (resp : D) (status : Int) (body : String) :
    readValue "null" = .ok .null ∧
    (∀ r ∈ (runWithJSON E c req resp).sent, E.Do r = .ok ⟨status, ⟨body, none⟩⟩ →
      (readValue body = .ok .null → (runWithJSON E c req resp).outcome
        = .panicked "invalid memory address or nil pointer dereference") ∧
      (readValue body ≠ .ok .null → ∃ e, (runWithJSON E c req resp).outcome = .returned e)) ∧
    (∀ r ∈ (runWithPostFields E c req resp).sent,
      E.Do r = .ok ⟨status, ⟨body, none⟩⟩ →
      (readValue body = .ok .null → (runWithPostFields E c req resp).outcome
        = .panicked "invalid memory address or nil pointer dereference") ∧
      (readValue body ≠ .ok .null →
        ∃ e, (runWithPostFields E c req resp).outcome = .returned e)) := by
  have key : ∀ (b : Built V) (r : HttpRequest), b.result = .ok r →
      E.Do r = .ok ⟨status, ⟨body, none⟩⟩ →
      (readValue body = .ok .null → (exchange (Decode E) E b resp).outcome
        = .panicked "invalid memory address or nil pointer dereference") ∧
      (readValue body ≠ .ok .null →
        ∃ e, (exchange (Decode E) E b resp).outcome = .returned e) := by
    intro b r hb hdo
    rw [(exchange_read (Decode E) E b resp r status body hb hdo).1]
    have hnil := Decode_nil_iff E body ⟨resp, []⟩
    cases h1 : (Decode E body ⟨resp, []⟩).err with
    | some e =>
      simp only [h1, reduceCtorEq, false_and, false_iff] at hnil
      by_cases hs : status = 200 <;> simp [hs, hnil]
    | none =>
      cases h2 : (Decode E body ⟨resp, []⟩).gr with
      | none =>
        simp only [h1, h2, and_self, true_iff] at hnil
        simp [hnil]
      | some g =>
        simp only [h1, h2, reduceCtorEq, and_false, false_iff] at hnil
        cases h3 : g.Errors <;> simp [h3, hnil]
  rw [runWithJSON_eq, runWithPostFields_eq]
  exact ⟨rfl, fun r hr hdo => key _ r ((mem_sent_iff (Decode E) E _ resp r).1 hr) hdo,
    fun r hr hdo => key _ r ((mem_sent_iff (Decode E) E _ resp r).1 hr) hdo⟩

/-- C10 at status 200 and the body `null`, for the Request of `TestDoJSON` and
for a Request with files. -/
theorem C10_null_body_panics_witness :
    (runWithJSON (exampleEnv false 200 "null") exampleClient plainRequest JSON.null).outcome
      = .panicked "invalid memory address or nil pointer dereference" ∧
    (runWithPostFields (exampleEnv false 200 "null") exampleClient uploadRequest
        JSON.null).outcome
      = .panicked "invalid memory address or nil pointer dereference" :=
  ⟨((C10_null_body_panics (exampleEnv false 200 "null") exampleClient plainRequest JSON.null
      200 "null").2.1 plainOutgoing (by decide) rfl).1 rfl,
    ((C10_null_body_panics (exampleEnv false 200 "null") exampleClient uploadRequest JSON.null
      200 "null").2.2 uploadOutgoing (by decide) rfl).1 rfl⟩

/-! ## The number of exchanges -/

/-- The loop over the files succeeds exactly when no part fails to be created
and no file fails to be read. -/
theorem writeFiles_ok_iff {V D : Type} (E : Env V D) (files : List File) (i : Nat)
    (parts : List Part) :
    (∃ out, writeFiles E i files parts = .ok out) ↔
      (∀ k, k < files.length → E.createFormFileErr (i + k) = none) ∧
      (∀ f ∈ files, f.R.err = none) := by
  induction files generalizing i parts with
  | nil => simp [writeFiles]
  | cons f rest ih =>
    unfold writeFiles
    simp only
    cases hc : E.createFormFileErr i with
    | some e =>
      simp only [reduceCtorEq, exists_false, false_iff, not_and]
      intro h
      have := h 0 (by simp)
      simp [hc] at this
    | none =>
      cases hr : f.R.err with
      | some e =>
        simp only [reduceCtorEq, exists_false, false_iff, not_and]
        intro _ h
        have := h f (by simp)
        simp [hr] at this
      | none =>
        simp only
        rw [ih]
        constructor
        · rintro ⟨h1, h2⟩
          refine ⟨?_, ?_⟩
          · intro k hk
            cases k with
            | zero => simpa using hc
            | succ k =>
              have := h1 k (by simpa using hk)
              rw [← this]
              congr 1
              omega
          · intro g hg
            rcases List.mem_cons.1 hg with rfl | hg
            · exact hr
            · exact h2 g hg
        · rintro ⟨h1, h2⟩
          refine ⟨?_, ?_⟩
          · intro k hk
            have := h1 (k + 1) (by simpa using hk)
            rw [← this]
            congr 1
            omega
          · intro g hg
            exact h2 g (List.mem_cons_of_mem _ hg)

/-- The request of the JSON path is built exactly when the body can be encoded
and `http.NewRequest` accepts the endpoint. -/
theorem buildJSON_ok_iff {V D : Type} (E : Env V D) (c : Client) (req : Request V) :
    (∃ r, (buildJSON E c req).result = .ok r) ↔
      (∃ v, jsonMap E.marshal req.vars = .ok v) ∧ E.newRequestErr c.endpoint = none := by
  unfold buildJSON encodeRequestBody
  cases hv : jsonMap E.marshal req.vars with
  | error e => simp
  | ok v => cases hn : E.newRequestErr c.endpoint <;> simp

/-- The request of the multipart path is built exactly when every step before
the exchange goes through. -/
theorem buildPostFields_ok_iff {V D : Type} (E : Env V D) (c : Client) (req : Request V) :
    (∃ r, (buildPostFields E c req).result = .ok r) ↔
      (∃ ops, E.OperationsJSON req = .ok ops) ∧
      (∀ k, k < req.files.length → E.createFormFileErr k = none) ∧
      (∀ f ∈ req.files, f.R.err = none) ∧
      E.closeErr = none ∧ req.Header ≠ none ∧ E.newRequestErr c.endpoint = none := by
  have hw := writeFiles_ok_iff E req.files 0 []
  simp only [Nat.zero_add] at hw
  rw [← and_assoc (b := ∀ f ∈ req.files, f.R.err = none), ← hw]
  unfold buildPostFields
  cases ho : E.OperationsJSON req with
  | error e => simp
  | ok ops =>
    cases hf : writeFiles E 0 req.files [] with
    | error e => simp
    | ok parts =>
      cases hc : E.closeErr with
      | some e => simp
      | none =>
        cases hh : req.Header with
        | none => simp
        | some h => cases hn : E.newRequestErr c.endpoint <;> simp

/-- The number of requests handed to the transport by one call. -/
theorem sent_length {V D : Type} (decode : String → graphResponse D → Decoded D)
    (E : Env V D) (b : Built V) (resp : D) :
    (exchange decode E b resp).sent.length ≤ 1 ∧
      ((exchange decode E b resp).sent.length = 1 ↔ ∃ r, b.result = .ok r) ∧
      (∀ r, b.result = .ok r → (exchange decode E b resp).sent = [r]) := by
  rw [exchange_sent]
  cases hb : b.result <;> simp

/-- C9: one call hands at most one request to the transport, whatever the
transport answers.  It hands over exactly one when the body and the request
are built, which is when every step before the exchange goes through, and none
when the encoding fails, a file cannot be read or the writer cannot be
closed. -/
theorem C9_at_most_one_exchange {V D : Type} (E : Env V D) (c : Client) (req : Request V)
    (resp : D) :
    ((runWithJSON E c req resp).sent.length ≤ 1 ∧
      ((runWithJSON E c req resp).sent.length = 1 ↔
        (∃ v, jsonMap E.marshal req.vars = .ok v) ∧ E.newRequestErr c.endpoint = none) ∧
      (∀ e, jsonMap E.marshal req.vars = .error e → (runWithJSON E c req resp).sent = [])) ∧
    ((runWithPostFields E c req resp).sent.length ≤ 1 ∧
      ((runWithPostFields E c req resp).sent.length = 1 ↔
        (∃ ops, E.OperationsJSON req = .ok ops) ∧
        (∀ k, k < req.files.length → E.createFormFileErr k = none) ∧
        (∀ f ∈ req.files, f.R.err = none) ∧
        E.closeErr = none ∧ req.Header ≠ none ∧ E.newRequestErr c.endpoint = none) ∧
      (∀ e, E.OperationsJSON req = .error e → (runWithPostFields E c req resp).sent = []) ∧
      ((∃ f ∈ req.files, f.R.err ≠ none) → (runWithPostFields E c req resp).sent = []) ∧
      (E.closeErr ≠ none → (runWithPostFields E c req resp).sent = [])) := by
  have hj := sent_length (Decode E) E (buildJSON E c req) resp
  have hm := sent_length (Decode E) E (buildPostFields E c req) resp
  rw [buildJSON_ok_iff] at hj
  rw [buildPostFields_ok_iff] at hm
  have zero : ∀ l : List HttpRequest, l.length ≤ 1 → ¬ l.length = 1 → l = [] := by
    intro l h1 h2
    apply List.eq_nil_of_length_eq_zero
    omega
  rw [runWithJSON_eq, runWithPostFields_eq]
  refine ⟨⟨hj.1, hj.2.1, ?_⟩, hm.1, hm.2.1, ?_, ?_, ?_⟩
  · intro e he
    refine zero _ hj.1 (fun h => ?_)
    obtain ⟨⟨v, hv⟩, _⟩ := hj.2.1.1 h
    rw [he] at hv
    cases hv
  · intro e he
    refine zero _ hm.1 (fun h => ?_)
    obtain ⟨⟨v, hv⟩, _⟩ := hm.2.1.1 h
    rw [he] at hv
    cases hv
  · rintro ⟨f, hf, hne⟩
    refine zero _ hm.1 (fun h => ?_)
    exact hne ((hm.2.1.1 h).2.2.1 f hf)
  · intro hne
    refine zero _ hm.1 (fun h => ?_)
    exact hne (hm.2.1.1 h).2.2.2.1

/-- C9 at three calls: the Request of `TestDoJSON` answered with status 500
leads to one exchange, a file that cannot be read to none, and so does a
Request with files whose headers are nil. -/
theorem C9_at_most_one_exchange_examples :
    (runWithJSON (exampleEnv false 500 serverErrorBody) exampleClient plainRequest
        JSON.null).sent.length = 1 ∧
    (runWithPostFields (exampleEnv false 200 dataBody) exampleClient brokenRequest
        JSON.null).sent = [] ∧
    (runWithPostFields (exampleEnv false 200 dataBody) exampleClient brokenRequest
        JSON.null).outcome
      = .returned (some (.wrap (.msg "unexpected EOF") "preparing file")) ∧
    (runWithPostFields (exampleEnv false 200 dataBody) exampleClient
        { uploadRequest with Header := none } JSON.null).outcome
      = .panicked "assignment to entry in nil map" :=
  ⟨(C9_at_most_one_exchange (exampleEnv false 500 serverErrorBody) exampleClient plainRequest
      JSON.null).1.2.1.2 ⟨⟨"null", rfl⟩, rfl⟩,
    (C9_at_most_one_exchange (exampleEnv false 200 dataBody) exampleClient brokenRequest
      JSON.null).2.2.2.2.1 ⟨⟨"file", "a.txt", ⟨"hel", some (.msg "unexpected EOF")⟩⟩,
        List.mem_singleton.2 rfl, by simp⟩,
    rfl, rfl⟩

/-! ## Headers -/

/-- Reading a map after a write. -/
theorem lookup_store (h : Header) (k : String) (vs : List String) (K : String) :
    (h.store k vs).lookup K = if k = K then some vs else h.lookup K := by
  induction h with
  | nil =>
    simp only [Header.store, Header.lookup]
  | cons e rest ih =>
    obtain ⟨k1, vs1⟩ := e
    unfold Header.store
    by_cases h1 : k1 = k
    · subst h1
      simp only [if_true, Header.lookup]
      by_cases h2 : k1 = K <;> simp [h2]
    · simp only [if_neg h1, Header.lookup, ih]
      by_cases h2 : k1 = K
      · subst h2
        have h3 : ¬ k = k1 := fun h => h1 h.symm
        simp [h3]
      · simp [h2]

/-- The values under a key after the inner loop has added the values of one
entry. -/
theorem values_addValues (h : Header) (key : String) (values : List String) (K : String) :
    ((addValues h key values).lookup K).getD [] =
      (h.lookup K).getD [] ++ (if CanonicalMIMEHeaderKey key = K then values else []) := by
  induction values generalizing h with
  | nil => simp [addValues]
  | cons v rest ih =>
    unfold addValues
    rw [ih]
    unfold Header.Add
    rw [lookup_store]
    by_cases hk : CanonicalMIMEHeaderKey key = K
    · subst hk
      simp
    · simp [hk]

/-- The values under a key after the outer loop has visited the entries. -/
theorem values_addEntries (h : Header) (entries : List (String × List String)) (K : String) :
    ((addEntries h entries).lookup K).getD [] =
      (h.lookup K).getD [] ++
        (entries.filter (fun e => CanonicalMIMEHeaderKey e.1 = K)).flatMap (fun e => e.2) := by
  induction entries generalizing h with
  | nil => simp [addEntries]
  | cons e rest ih =>
    obtain ⟨key, values⟩ := e
    unfold addEntries
    rw [ih, values_addValues]
    by_cases hk : CanonicalMIMEHeaderKey key = K
    · simp [List.filter_cons, hk]
    · simp [List.filter_cons, hk]

/-- The values under a key once `Content-Type` and `Accept` have been set on
the fresh request. -/
theorem values_defaults (contentType accept : String) (K : String) :
    (Header.lookup (Header.Set (Header.Set [] "Content-Type" contentType) "Accept" accept)
        K).getD [] =
      if K = "Content-Type" then [contentType] else if K = "Accept" then [accept] else [] := by
  have h1 : CanonicalMIMEHeaderKey "Content-Type" = "Content-Type" := by decide
  have h2 : CanonicalMIMEHeaderKey "Accept" = "Accept" := by decide
  unfold Header.Set
  rw [h1, h2, lookup_store, lookup_store]
  by_cases hA : "Accept" = K
  · subst hA
    simp
  · by_cases hC : "Content-Type" = K
    · subst hC
      simp
    · have hA1 : ¬ K = "Accept" := fun h => hA h.symm
      have hC1 : ¬ K = "Content-Type" := fun h => hC h.symm
      simp [hA, hC, hA1, hC1, Header.lookup]

/-- The header of the request that `runWithJSON` builds. -/
theorem buildJSON_header {V D : Type} (E : Env V D) (c : Client) (req : Request V)
    (r : HttpRequest) (hb : (buildJSON E c req).result = .ok r) (K : String) :
    (r.Header.lookup K).getD [] =
      (if K = "Content-Type" then [jsonContentType]
        else if K = "Accept" then [jsonContentType] else []) ++
      ((rangeOf E req.Header).filter (fun e => CanonicalMIMEHeaderKey e.1 = K)).flatMap
        (fun e => e.2) := by
  unfold buildJSON at hb
  cases hv : encodeRequestBody E req with
  | error e => simp [hv] at hb
  | ok v =>
    cases hn : E.newRequestErr c.endpoint with
    | some e => simp [hv, hn] at hb
    | none =>
      simp only [hv, hn, Except.ok.injEq] at hb
      subst hb
      simp only
      rw [values_addEntries, values_defaults]

/-- The header of the request that `runWithPostFields` builds, and the header
that it leaves on the Request. -/
theorem buildPostFields_header {V D : Type} (E : Env V D) (c : Client) (req : Request V)
    (r : HttpRequest) (hb : (buildPostFields E c req).result = .ok r) :
    ∃ h, req.Header = some h ∧
      (buildPostFields E c req).req.Header
        = some (h.Set "Content-Type" (FormDataContentType E.boundary)) ∧
      ∀ K, (r.Header.lookup K).getD [] =
        (if K = "Content-Type" then [FormDataContentType E.boundary]
          else if K = "Accept" then [jsonContentType] else []) ++
        ((E.rangeHeader (h.Set "Content-Type" (FormDataContentType E.boundary))).filter
          (fun e => CanonicalMIMEHeaderKey e.1 = K)).flatMap (fun e => e.2) := by
  unfold buildPostFields at hb ⊢
  cases ho : E.OperationsJSON req with
  | error e => simp [ho] at hb
  | ok ops =>
    cases hf : writeFiles E 0 req.files [] with
    | error e => simp [ho, hf] at hb
    | ok parts =>
      cases hc : E.closeErr with
      | some e => simp [ho, hf, hc] at hb
      | none =>
        cases hh : req.Header with
        | none => simp [ho, hf, hc, hh] at hb
        | some h =>
          cases hn : E.newRequestErr c.endpoint with
          | some e => simp [ho, hf, hc, hh, hn] at hb
          | none =>
            simp only [ho, hf, hc, hh, hn, Except.ok.injEq] at hb
            subst hb
            refine ⟨h, rfl, ?_, ?_⟩
            · simp [ho, hf, hc, hh, hn]
            · intro K
              simp only [rangeOf]
              rw [values_addEntries, values_defaults]

/-- Storing under a key leaves the entries with other keys as they are. -/
theorem filter_store (h : Header) (k : String) (vs : List String) (p : String → Bool)
    (hp : p k = false) :
    (h.store k vs).filter (fun e => p e.1) = h.filter (fun e => p e.1) := by
  induction h with
  | nil => simp [Header.store, hp]
  | cons e rest ih =>
    obtain ⟨k1, vs1⟩ := e
    unfold Header.store
    by_cases h1 : k1 = k
    · subst h1
      simp [List.filter_cons, hp]
    · simp only [if_neg h1, List.filter_cons, ih]

/-- The entries visited under a canonical name are the caller's entries under
that name in some order. -/
theorem visited_perm (visited h : Header) (hperm : visited.Perm h) (K : String) :
    (visited.filter (fun e => CanonicalMIMEHeaderKey e.1 = K)).Perm
      (h.filter (fun e => CanonicalMIMEHeaderKey e.1 = K)) :=
  hperm.filter _

/-- C5, amended: the request that `runWithJSON` sends carries under each
canonical name the default of the transport for that name, if there is one,
and after it the values of the caller's entries whose name has that canonical
form, entry after entry in the order of the visit and the values of one entry
in the caller's order; so no value of the caller is dropped, and each is there
as many times as the caller supplied it, and once more if it is the default of
the transport for that name.  The request that `runWithPostFields` sends does
so for every canonical name other than `Content-Type`. -/
theorem C5_caller_headers_carried {V D : Type} (E : Env V D) (c : Client) (req : Request V)
    (resp : D) (hperm : ∀ h, (E.rangeHeader h).Perm h) :
    (∀ r ∈ (runWithJSON E c req resp).sent, ∀ K,
      (∃ visited : Header,
        visited.Perm ((req.Header.getD []).filter (fun e => CanonicalMIMEHeaderKey e.1 = K)) ∧
        (r.Header.lookup K).getD [] =
          (if K = "Content-Type" then [jsonContentType]
            else if K = "Accept" then [jsonContentType] else []) ++
          visited.flatMap (fun e => e.2)) ∧
      ∀ v, ((r.Header.lookup K).getD []).count v =
        (if K = "Content-Type" then [jsonContentType]
          else if K = "Accept" then [jsonContentType] else []).count v +
        (((req.Header.getD []).filter (fun e => CanonicalMIMEHeaderKey e.1 = K)).flatMap
          (fun e => e.2)).count v) ∧
    (∀ r ∈ (runWithPostFields E c req resp).sent, ∀ K, K ≠ "Content-Type" →
      (∃ visited : Header,
        visited.Perm ((req.Header.getD []).filter (fun e => CanonicalMIMEHeaderKey e.1 = K)) ∧
        (r.Header.lookup K).getD [] =
          (if K = "Accept" then [jsonContentType] else []) ++
          visited.flatMap (fun e => e.2)) ∧
      ∀ v, ((r.Header.lookup K).getD []).count v =
        (if K = "Accept" then [jsonContentType] else []).count v +
        (((req.Header.getD []).filter (fun e => CanonicalMIMEHeaderKey e.1 = K)).flatMap
          (fun e => e.2)).count v) := by
  constructor
  · intro r hr K
    have hb := (sent_json_iff E c req resp r).1 hr
    have hl := buildJSON_header E c req r hb K
    have hp : ((rangeOf E req.Header).filter (fun e => CanonicalMIMEHeaderKey e.1 = K)).Perm
        ((req.Header.getD []).filter (fun e => CanonicalMIMEHeaderKey e.1 = K)) := by
      cases hh : req.Header with
      | none => simp [rangeOf]
      | some h => exact visited_perm _ _ (hperm h) K
    refine ⟨⟨_, hp, hl⟩, fun v => ?_⟩
    rw [hl, List.count_append]
    congr 1
    exact (hp.flatMap_right _).count_eq v
  · intro r hr K hK
    have hb := (sent_post_iff E c req resp r).1 hr
    obtain ⟨h, hh, _, hl⟩ := buildPostFields_header E c req r hb
    have hl1 := hl K
    rw [if_neg hK] at hl1
    have hc : CanonicalMIMEHeaderKey "Content-Type" = "Content-Type" := by decide
    have hs : (h.Set "Content-Type" (FormDataContentType E.boundary)).filter
        (fun e => CanonicalMIMEHeaderKey e.1 = K)
        = h.filter (fun e => CanonicalMIMEHeaderKey e.1 = K) := by
      unfold Header.Set
      rw [hc]
      exact filter_store h "Content-Type" [FormDataContentType E.boundary]
        (fun k => decide (CanonicalMIMEHeaderKey k = K))
        (by simpa [hc] using fun h => hK h.symm)
    have hp : ((E.rangeHeader (h.Set "Content-Type" (FormDataContentType E.boundary))).filter
        (fun e => CanonicalMIMEHeaderKey e.1 = K)).Perm
        ((req.Header.getD []).filter (fun e => CanonicalMIMEHeaderKey e.1 = K)) := by
      rw [hh]
      have := visited_perm _ _ (hperm (h.Set "Content-Type" (FormDataContentType E.boundary))) K
      rw [hs] at this
      exact this
    refine ⟨⟨_, hp, hl1⟩, fun v => ?_⟩
    rw [hl1, List.count_append]
    congr 1
    exact (hp.flatMap_right _).count_eq v

/-- C5 at the header of `TestHeader`, where `X-Custom-Header: 123` is on the
outgoing request exactly once, and at a Request with files and a header of
three values, which are on the outgoing request in the caller's order. -/
theorem C5_caller_headers_carried_witness :
    (∀ h, ((exampleEnv false 200 dataBody).rangeHeader h).Perm h) ∧
    queryOutgoing ∈ (runWithJSON (exampleEnv false 200 dataBody) exampleClient queryRequest
      JSON.null).sent ∧
    queryOutgoing.Header.Values "X-Custom-Header" = ["123"] ∧
    ((queryOutgoing.Header.lookup "X-Custom-Header").getD []).count "123" =
      (if "X-Custom-Header" = "Content-Type" then [jsonContentType]
        else if "X-Custom-Header" = "Accept" then [jsonContentType] else []).count "123" +
      (((queryRequest.Header.getD []).filter
        (fun e => CanonicalMIMEHeaderKey e.1 = "X-Custom-Header")).flatMap
          (fun e => e.2)).count "123" ∧
    tracedOutgoing ∈ (runWithPostFields (exampleEnv false 200 dataBody) exampleClient
      tracedRequest JSON.null).sent ∧
    tracedOutgoing.Header.Values "X-Trace" = ["a", "b", "a"] ∧
    ((tracedOutgoing.Header.lookup "X-Trace").getD []).count "a" =
      (if "X-Trace" = "Accept" then [jsonContentType] else []).count "a" +
      (((tracedRequest.Header.getD []).filter
        (fun e => CanonicalMIMEHeaderKey e.1 = "X-Trace")).flatMap
          (fun e => e.2)).count "a" :=
  ⟨fun h => List.Perm.refl h, by decide, by decide,
    (((C5_caller_headers_carried (exampleEnv false 200 dataBody) exampleClient queryRequest
      JSON.null (fun h => List.Perm.refl h)).1 queryOutgoing (by decide)
      "X-Custom-Header").2 "123"),
    by decide, by decide,
    (((C5_caller_headers_carried (exampleEnv false 200 dataBody) exampleClient tracedRequest
      JSON.null (fun h => List.Perm.refl h)).2 tracedOutgoing (by decide)
      "X-Trace" (by decide)).2 "a")⟩

/-- C5 fails as stated: the caller supplies for `Accept` once the value that
the transport sets itself, and the request that `runWithJSON` sends carries
that value twice. -/
theorem C5_counterexample :
    acceptRequest.Header = some [("Accept", ["application/json; charset=utf-8"])] ∧
    (runWithJSON (exampleEnv false 200 dataBody) exampleClient acceptRequest
        JSON.null).sent = [acceptOutgoing] ∧
    (acceptOutgoing.Header.Values "Accept").count "application/json; charset=utf-8" = 2 :=
  ⟨rfl, by decide, by decide⟩

/-- C6, amended: on the request that either function sends, the first value
under `Content-Type` and under `Accept`, which is the one `Header.Get` gives,
is the default of the transport; values that the caller supplied under such a
name on the JSON path come after the default and do not replace it. -/
theorem C6_defaults_stay_first {V D : Type} (E : Env V D) (c : Client) (req : Request V)
    (resp : D) :
    (∀ r ∈ (runWithJSON E c req resp).sent, ∀ name,
      CanonicalMIMEHeaderKey name = "Content-Type" ∨ CanonicalMIMEHeaderKey name = "Accept" →
      r.Header.Get name = jsonContentType ∧
      r.Header.Values name = jsonContentType ::
        ((rangeOf E req.Header).filter
          (fun e => CanonicalMIMEHeaderKey e.1 = CanonicalMIMEHeaderKey name)).flatMap
            (fun e => e.2)) ∧
    (∀ r ∈ (runWithPostFields E c req resp).sent,
      r.Header.Get "Content-Type" = FormDataContentType E.boundary ∧
      r.Header.Get "Accept" = jsonContentType) := by
  have hc : CanonicalMIMEHeaderKey "Content-Type" = "Content-Type" := by decide
  have ha : CanonicalMIMEHeaderKey "Accept" = "Accept" := by decide
  constructor
  · intro r hr name hname
    have hb := (sent_json_iff E c req resp r).1 hr
    have hl := buildJSON_header E c req r hb (CanonicalMIMEHeaderKey name)
    have hv : r.Header.Values name = jsonContentType ::
        ((rangeOf E req.Header).filter
          (fun e => CanonicalMIMEHeaderKey e.1 = CanonicalMIMEHeaderKey name)).flatMap
            (fun e => e.2) := by
      unfold Header.Values
      rw [hl]
      rcases hname with h | h <;> simp [h]
    refine ⟨?_, hv⟩
    unfold Header.Get
    rw [hv]
  · intro r hr
    have hb := (sent_post_iff E c req resp r).1 hr
    obtain ⟨h, _, _, hl⟩ := buildPostFields_header E c req r hb
    constructor
    · unfold Header.Get Header.Values
      rw [hc, hl]
      simp
    · unfold Header.Get Header.Values
      rw [ha, hl]
      simp

/-- C6 fails as stated: the caller supplies `Content-Type: text/plain`, and on
the request that `runWithJSON` sends the value in effect for `Content-Type` is
still the default, with the caller's value after it. -/
theorem C6_counterexample :
    textRequest.Header = some [("Content-Type", ["text/plain"])] ∧
    (runWithJSON (exampleEnv false 200 dataBody) exampleClient textRequest JSON.null).sent
      = [textOutgoing] ∧
    textOutgoing.Header.Get "Content-Type" = "application/json; charset=utf-8" ∧
    textOutgoing.Header.Values "Content-Type"
      = ["application/json; charset=utf-8", "text/plain"] :=
  ⟨rfl, by decide, by decide, by decide⟩

/-- C8 does not hold: whenever `runWithPostFields` gets as far as closing the
writer on a Request whose headers are not nil, line 51 of src/multipart.go
writes the content type of the multipart body into the headers of the caller's
Request, in place of whatever the caller had under `Content-Type`.  The sibling
`runWithJSON` leaves the headers of the Request as they were. -/
theorem C8_request_header_overwritten {V D : Type} (E : Env V D) (c : Client)
    (req : Request V) (resp : D) (h : Header) (ops : String) (parts : List Part)
    (hh : req.Header = some h)
    (hops : E.OperationsJSON req = .ok ops)
    (hfiles : writeFiles E 0 req.files [] = .ok parts)
    (hclose : E.closeErr = none) :
    (runWithPostFields E c req resp).req.Header
      = some (h.Set "Content-Type" (FormDataContentType E.boundary)) ∧
    (runWithJSON E c req resp).req.Header = req.Header := by
  constructor
  · rw [runWithPostFields_eq, exchange_req]
    unfold buildPostFields
    simp only [hops, hfiles, hclose, hh]
    cases E.newRequestErr c.endpoint <;> rfl
  · rw [runWithJSON_eq, exchange_req]
    unfold buildJSON
    cases encodeRequestBody E req with
    | error e => rfl
    | ok v => cases E.newRequestErr c.endpoint <;> rfl

/-- C8 at a Request with two files whose caller set `Content-Type:
text/plain`: after `runWithPostFields` the headers of the Request hold the
content type of the multipart body instead, and are not what they were. -/
theorem C8_request_header_overwritten_witness :
    uploadRequest.Header = some [("Content-Type", ["text/plain"])] ∧
    (runWithPostFields (exampleEnv false 200 dataBody) exampleClient uploadRequest
        JSON.null).req.Header
      = some [("Content-Type", ["multipart/form-data; boundary=4e5d3a1c0b"])] ∧
    (runWithPostFields (exampleEnv false 200 dataBody) exampleClient uploadRequest
        JSON.null).req.Header ≠ uploadRequest.Header ∧
    (runWithJSON (exampleEnv false 200 dataBody) exampleClient uploadRequest
        JSON.null).req.Header = uploadRequest.Header :=
  ⟨rfl,
    (C8_request_header_overwritten (exampleEnv false 200 dataBody) exampleClient
      uploadRequest JSON.null [("Content-Type", ["text/plain"])]
      "\x7b\"query\":\"mutation ($file: Upload!) \x7b upload(file: $file) \x7d\",\"variables\":\x7b\"file\":null\x7d\x7d"
      [⟨"1", some "a.txt", "hello"⟩, ⟨"2", some "b.txt", "world"⟩] rfl rfl rfl rfl).1,
    by decide,
    (C8_request_header_overwritten (exampleEnv false 200 dataBody) exampleClient
      uploadRequest JSON.null [("Content-Type", ["text/plain"])]
      "\x7b\"query\":\"mutation ($file: Upload!) \x7b upload(file: $file) \x7d\",\"variables\":\x7b\"file\":null\x7d\x7d"
      [⟨"1", some "a.txt", "hello"⟩, ⟨"2", some "b.txt", "world"⟩] rfl rfl rfl rfl).2⟩

/-! ## The multipart body -/

/-- The parts that the loop over the files appends: one form file for each
file, named by the decimal text of its position counted from one. -/
theorem writeFiles_parts {V D : Type} (E : Env V D) (files : List File) (i : Nat)
    (parts out : List Part) (h : writeFiles E i files parts = .ok out) :
    out = parts ++ (files.enumFrom i).map
      (fun p => (⟨toString (p.1 + 1), some p.2.Name, p.2.R.data⟩ : Part)) := by
  induction files generalizing i parts with
  | nil =>
    simp only [writeFiles, Except.ok.injEq] at h
    simp [h]
  | cons f rest ih =>
    unfold writeFiles at h
    simp only at h
    cases hc : E.createFormFileErr i with
    | some e => simp [hc] at h
    | none =>
      cases hr : f.R.err with
      | some e => simp [hc, hr] at h
      | none =>
        simp only [hc, hr] at h
        rw [ih _ _ h]
        simp

/-- C7, amended: the body that `runWithPostFields` sends for a Request with
`n` files consists of the form files named `1` to `n`, the one at position `i`
with the name and the content of the file attached at position `i`, followed
by the two form fields `operations` and `map` in one of the two orders. -/
theorem C7_multipart_parts {V D : Type} (E : Env V D) (c : Client) (req : Request V)
    (resp : D) :
    ∀ r ∈ (runWithPostFields E c req resp).sent,
      ∃ ops fields, E.OperationsJSON req = .ok ops ∧
        (fields = [(⟨"operations", none, ops⟩ : Part), ⟨"map", none, E.FileMap req⟩] ∨
          fields = [(⟨"map", none, E.FileMap req⟩ : Part), ⟨"operations", none, ops⟩]) ∧
        r.Body = .multipart E.boundary
          (req.files.enum.map
            (fun p => (⟨toString (p.1 + 1), some p.2.Name, p.2.R.data⟩ : Part)) ++ fields) ∧
        (req.files.enum.map
          (fun p => (⟨toString (p.1 + 1), some p.2.Name, p.2.R.data⟩ : Part))).map
            (fun p => p.name)
          = (List.range req.files.length).map (fun i => toString (i + 1)) := by
  intro r hr
  have hb := (sent_post_iff E c req resp r).1 hr
  unfold buildPostFields at hb
  cases ho : E.OperationsJSON req with
  | error e => simp [ho] at hb
  | ok ops =>
    cases hf : writeFiles E 0 req.files [] with
    | error e => simp [ho, hf] at hb
    | ok parts =>
      cases hc : E.closeErr with
      | some e => simp [ho, hf, hc] at hb
      | none =>
        cases hh : req.Header with
        | none => simp [ho, hf, hc, hh] at hb
        | some h =>
          cases hn : E.newRequestErr c.endpoint with
          | some e => simp [ho, hf, hc, hh, hn] at hb
          | none =>
            simp only [ho, hf, hc, hh, hn, Except.ok.injEq] at hb
            subst hb
            have hp := writeFiles_parts E req.files 0 [] parts hf
            simp only [List.nil_append] at hp
            refine ⟨ops, writeParams E ops (E.FileMap req), rfl, ?_, ?_, ?_⟩
            · unfold writeParams
              cases E.paramsMapFirst
              · left
                rfl
              · right
                rfl
            · simp only [hp]
              rfl
            · rw [← List.enum_map_fst req.files, List.map_map, List.map_map]
              rfl

/-- C7 at a Request with two files when the loop over `params` visits
`operations` first. -/
theorem C7_multipart_parts_witness :
    uploadOutgoing ∈ (runWithPostFields (exampleEnv false 200 dataBody) exampleClient
      uploadRequest JSON.null).sent ∧
    (match uploadOutgoing.Body with
      | .multipart _ parts => parts.map (fun p => p.name)
      | .raw _ => []) = ["1", "2", "operations", "map"] ∧
    ∃ ops fields, (exampleEnv false 200 dataBody).OperationsJSON uploadRequest = .ok ops ∧
      (fields = [(⟨"operations", none, ops⟩ : Part),
          ⟨"map", none, (exampleEnv false 200 dataBody).FileMap uploadRequest⟩] ∨
        fields = [(⟨"map", none, (exampleEnv false 200 dataBody).FileMap uploadRequest⟩ : Part),
          ⟨"operations", none, ops⟩]) ∧
      uploadOutgoing.Body = .multipart (exampleEnv false 200 dataBody).boundary
        (uploadRequest.files.enum.map
          (fun p => (⟨toString (p.1 + 1), some p.2.Name, p.2.R.data⟩ : Part)) ++ fields) ∧
      (uploadRequest.files.enum.map
        (fun p => (⟨toString (p.1 + 1), some p.2.Name, p.2.R.data⟩ : Part))).map
          (fun p => p.name)
        = (List.range uploadRequest.files.length).map (fun i => toString (i + 1)) :=
  ⟨by decide, by decide,
    C7_multipart_parts (exampleEnv false 200 dataBody) exampleClient uploadRequest JSON.null
      uploadOutgoing (by decide)⟩

/-- C7 fails as stated: when the loop over `params` visits `map` first, the
form field `map` comes before the form field `operations`. -/
theorem C7_counterexample :
    (runWithPostFields (exampleEnv true 200 dataBody) exampleClient uploadRequest
        JSON.null).sent.map
      (fun r => match r.Body with
        | .multipart _ parts => parts.map (fun p => p.name)
        | .raw _ => [])
      = [["1", "2", "map", "operations"]] := by
  decide

end Graphql
